import Mathlib

/-!
# fix_data: row reconciliation, backup and deletion

A shallow embedding of `src/fix_data/{models,database,main}.go`.

Go `string` values are modelled by Lean `String`; the algorithms work on the
character list `String.data`.  Every pattern the program searches for
(`_`, digits, `'`, `,`, `#`, the type vocabulary) is ASCII, so working on
characters rather than on bytes does not change any result.
-/

namespace FixData

/-! ## The regular expression of `extractNamePrefix` -/

/-- A single-character matcher: a literal character or the class `\d`. -/
inductive Atom where
  | lit (c : Char)
  | digit
  deriving DecidableEq, Repr

/-- Does the atom accept the character?  `\d` is `[0-9]` in Go's RE2 syntax. -/
def Atom.test : Atom → Char → Bool
  | .lit c, x => x == c
  | .digit, x => x.isDigit

/-- The pieces a pattern is a sequence of: one atom, `atom+`, or `$`
(end of text, since the pattern carries no `m` flag). -/
inductive Item where
  | one (a : Atom)
  | plus (a : Atom)
  | endText
  deriving DecidableEq, Repr

/-- One or more repetitions of `a`, greedy, followed by the continuation `k`;
the result is the number of characters consumed. -/
def matchPlus (a : Atom) (k : List Char → Option Nat) : List Char → Option Nat
  | [] => none
  | c :: cs =>
    if a.test c then
      match matchPlus a k cs with
      | some n => some (n + 1)
      | none => (k cs).map (· + 1)
    else none

/-- Leftmost-first match of the pattern at the start of the text: the length
of the preferred match, if there is one. -/
def matchHere : List Item → List Char → Option Nat
  | [], _ => some 0
  | .endText :: rest, s => if s.isEmpty then matchHere rest s else none
  | .one a :: rest, s =>
    match s with
    | c :: cs => if a.test c then (matchHere rest cs).map (· + 1) else none
    | [] => none
  | .plus a :: rest, s => matchPlus a (matchHere rest) s

/-- The scan of `Regexp.ReplaceAllString`: `skip` characters of the current
match are still to be dropped; `abut` says that a match ended exactly here, in
which case an empty match is not replaced. -/
def replaceAllAux (re : List Item) (repl : List Char) : Nat → Bool → List Char → List Char
  | _ + 1, _, [] => []
  | 0, abut, [] =>
    match matchHere re [] with
    | some _ => if abut then [] else repl
    | none => []
  | skip + 1, abut, _ :: cs => replaceAllAux re repl skip abut cs
  | 0, abut, c :: cs =>
    match matchHere re (c :: cs) with
    | some 0 => (if abut then [] else repl) ++ c :: replaceAllAux re repl 0 false cs
    | some (n + 1) => repl ++ replaceAllAux re repl n true cs
    | none => c :: replaceAllAux re repl 0 false cs

/-- Model of `Regexp.ReplaceAllString(src, repl)` for a literal replacement. -/
def ReplaceAllString (re : List Item) (src repl : String) : String :=
  ⟨replaceAllAux re repl.data 0 false src.data⟩

/-- The pattern `_\d+$`. -/
def namePrefixRe : List Item := [.one (.lit '_'), .plus .digit, .endText]

/-- Model of `extractNamePrefix`: delete every match of `_\d+$`. -/
def extractNamePrefix (name : String) : String :=
  ReplaceAllString namePrefixRe name ""

/-! ## Type classification -/

/-- Model of `strings.Contains` on character lists: some suffix of `s` starts
with `sub`. -/
def containsChars (s sub : List Char) : Bool :=
  s.tails.any (fun t => sub.isPrefixOf t)

/-- Model of `strings.Contains`. -/
def Contains (s sub : String) : Bool := containsChars s.data sub.data

/-- Model of `strings.ToLower`, which maps `unicode.ToLower` over the runes;
the rune map comes from Go's Unicode tables and is taken as the parameter
`lower`. -/
def ToLower (lower : Char → Char) (s : String) : String := ⟨s.data.map lower⟩

/-- The vocabulary of `isStringType`. -/
def stringTypes : List String := ["varchar", "char", "text", "longtext", "mediumtext", "tinytext"]

/-- The vocabulary of `isDateTimeType`. -/
def dateTimeTypes : List String := ["datetime", "timestamp", "date", "time"]

/-- Model of `isStringType`. -/
def isStringType (lower : Char → Char) (dataType : String) : Bool :=
  stringTypes.any (fun t => Contains (ToLower lower dataType) t)

/-- Model of `isDateTimeType`. -/
def isDateTimeType (lower : Char → Char) (dataType : String) : Bool :=
  dateTimeTypes.any (fun t => Contains (ToLower lower dataType) t)

/-- The three outcomes of the `if isStringType … else if isDateTimeType … else`
chain that `CountRowsByCondition` and `DeleteDataByCondition` branch on. -/
inductive ColumnType where
  | StringLike
  | DateTimeLike
  | Unsupported
  deriving DecidableEq, Repr

/-- The branch the `if … else if … else` chain takes for a type name. -/
def classifyType (lower : Char → Char) (dataType : String) : ColumnType :=
  if isStringType lower dataType then .StringLike
  else if isDateTimeType lower dataType then .DateTimeLike
  else .Unsupported

/-- A text of the form `_` followed by one or more digits. -/
def IsSuffixForm (s : List Char) : Prop :=
  ∃ d, s = '_' :: d ∧ d ≠ [] ∧ ∀ c ∈ d, c.isDigit = true

/-! ## Data model (`models.go`) -/

/-- Model of `CheckTask`. -/
structure CheckTask where
  TargetDBHost : String
  DatabaseName : String
  TableName : String
  SearchCondition : String
  ExpectedRowCount : Int
  deriving DecidableEq, Repr

/-- Model of `CheckResult`. -/
structure CheckResult where
  Task : CheckTask
  ActualCount : Int
  ExpectedCount : Int
  ArchiveColumn : String
  IsMatch : Bool
  deriving DecidableEq, Repr

/-- Model of `HistoryArchiveDBConfig`. -/
structure HistoryArchiveDBConfig where
  Host : String
  Port : Int
  Username : String
  Password : String
  Database : String
  Table : String
  deriving DecidableEq, Repr

/-- Model of `TargetDBConfig`. -/
structure TargetDBConfig where
  Username : String
  Password : String
  deriving DecidableEq, Repr

/-- Model of `Config`. -/
structure Config where
  HistoryArchiveDB : HistoryArchiveDBConfig
  TargetDBDefaults : TargetDBConfig
  BackupDir : String
  deriving DecidableEq, Repr

/-- Go `error` values the program meets: the sentinel `sql.ErrNoRows`, an error
of the driver or the operating system (its text is not inspected), a
`*strconv.NumError` (function, input, and whether it is a range error), and the
results of `fmt.Errorf`: a fixed text, possibly followed by `%v` of a cause. -/
inductive GoError where
  | ErrNoRows
  | driver (text : String)
  | numError (fn num : String) (range : Bool)
  | msg (text : String)
  | wrap (text : String) (cause : GoError)
  deriving DecidableEq, Repr

deriving instance DecidableEq for Except

/-! ## Strings -/

/-- Model of `strings.ReplaceAll` for a non-empty `old`: `skip` characters of the
occurrence just replaced are still to be dropped. -/
def replaceAux (old new : List Char) : Nat → List Char → List Char
  | _, [] => []
  | skip + 1, _ :: cs => replaceAux old new skip cs
  | 0, c :: cs =>
    if old.isPrefixOf (c :: cs) then new ++ replaceAux old new (old.length - 1) cs
    else c :: replaceAux old new 0 cs

/-- Model of `strings.ReplaceAll(s, old, new)`; an empty `old` matches before
every character and at the end. -/
def ReplaceAll (s old new : String) : String :=
  if old.data.isEmpty then ⟨new.data ++ s.data.flatMap (fun c => c :: new.data)⟩
  else ⟨replaceAux old.data new.data 0 s.data⟩

/-- Model of `strings.Join`. -/
def Join (elems : List String) (sep : String) : String :=
  sep.intercalate elems

/-- Model of `unicode.IsSpace`. -/
def isSpace (c : Char) : Bool :=
  c == '\t' || c == '\n' || c == Char.ofNat 0x0B || c == Char.ofNat 0x0C || c == '\r' ||
  c == ' ' || c == Char.ofNat 0x85 || c == Char.ofNat 0xA0 || c == Char.ofNat 0x1680 ||
  (0x2000 ≤ c.toNat && c.toNat ≤ 0x200A) || c == Char.ofNat 0x2028 ||
  c == Char.ofNat 0x2029 || c == Char.ofNat 0x202F || c == Char.ofNat 0x205F ||
  c == Char.ofNat 0x3000

/-- Trimming of a character list at both ends. -/
def trimChars (s : List Char) : List Char :=
  ((s.dropWhile isSpace).reverse.dropWhile isSpace).reverse

/-- Model of `strings.TrimSpace`. -/
def TrimSpace (s : String) : String := ⟨trimChars s.data⟩

/-- Model of `strings.HasPrefix`. -/
def HasPrefix (s pre : String) : Bool := pre.data.isPrefixOf s.data

/-- Splitting at every occurrence of the character `sep`; the result is never
empty. -/
def splitChars (sep : Char) : List Char → List (List Char)
  | [] => [[]]
  | c :: cs =>
    if c == sep then [] :: splitChars sep cs
    else
      match splitChars sep cs with
      | f :: fs => (c :: f) :: fs
      | [] => [[c]]

/-- Model of `strings.Split(s, sep)` for a one-character separator. -/
def Split (s : String) (sep : Char) : List String :=
  (splitChars sep s.data).map String.mk

/-- Value of a digit string read in base ten. -/
def decimalValue (ds : List Char) : Nat :=
  ds.foldl (fun n c => n * 10 + (c.toNat - '0'.toNat)) 0

/-- Model of `strconv.Atoi` with a 64-bit `int`: an optional sign, then one or
more decimal digits, the value within the range of `int`. -/
def Atoi (s : String) : Except GoError Int :=
  let go (neg : Bool) (ds : List Char) : Except GoError Int :=
    if ds.isEmpty then .error (.numError "Atoi" s false)
    else if ds.all Char.isDigit then
      let n := decimalValue ds
      if neg then
        if n > 2 ^ 63 then .error (.numError "Atoi" s true) else .ok (-(n : Int))
      else
        if n ≥ 2 ^ 63 then .error (.numError "Atoi" s true) else .ok (n : Int)
    else .error (.numError "Atoi" s false)
  match s.data with
  | '-' :: t => go true t
  | '+' :: t => go false t
  | t => go false t

/-! ## Time -/

/-- The wall-clock fields of a `time.Time`. -/
structure Time where
  year : Nat
  month : Nat
  day : Nat
  hour : Nat
  minute : Nat
  second : Nat
  deriving DecidableEq, Repr

/-- Model of `appendInt` of package `time`: decimal digits, zero-padded to
`width`, with the two short cuts that function takes for two-digit and
four-digit fields. -/
def appendInt (x width : Nat) : List Char :=
  if width = 2 ∧ x < 100 then [Nat.digitChar (x / 10), Nat.digitChar (x % 10)]
  else if width = 4 ∧ x < 10000 then
    [Nat.digitChar (x / 1000), Nat.digitChar (x / 100 % 10),
      Nat.digitChar (x / 10 % 10), Nat.digitChar (x % 10)]
  else List.replicate (width - (Nat.toDigits 10 x).length) '0' ++ Nat.toDigits 10 x

/-- Model of `Time.Format("20060102_150405")`. -/
def Time.formatStamp (t : Time) : String :=
  ⟨appendInt t.year 4 ++ appendInt t.month 2 ++ appendInt t.day 2 ++ '_' ::
    (appendInt t.hour 2 ++ appendInt t.minute 2 ++ appendInt t.second 2)⟩

/-- Model of `Time.Format("2006-01-02 15:04:05")`. -/
def Time.formatDateTime (t : Time) : String :=
  ⟨appendInt t.year 4 ++ '-' :: appendInt t.month 2 ++ '-' :: appendInt t.day 2 ++ ' ' ::
    (appendInt t.hour 2 ++ ':' :: appendInt t.minute 2 ++ ':' :: appendInt t.second 2)⟩

/-- A time with a four-digit year and fields in their calendar ranges. -/
def Time.Valid (t : Time) : Prop :=
  t.year ≤ 9999 ∧ 1 ≤ t.month ∧ t.month ≤ 12 ∧ 1 ≤ t.day ∧ t.day ≤ 31 ∧
  t.hour ≤ 23 ∧ t.minute ≤ 59 ∧ t.second ≤ 59

instance (t : Time) : Decidable t.Valid := by unfold Time.Valid; infer_instance

/-! ## Values of a scanned row -/

/-- What `rows.Scan` stores into an `interface{}`: `nil`, `[]byte`, `string`,
`time.Time`, or a value of another type, kept as the text `%v` prints. -/
inductive Value where
  | null
  | bytes (b : String)
  | str (s : String)
  | time (t : Time)
  | other (formatted : String)
  deriving DecidableEq, Repr

/-- The `valueStrings[i]` computed in the row loop of `BackupDataToFile`. -/
def renderValue : Value → String
  | .null => "NULL"
  | .bytes b => "'" ++ ReplaceAll b "'" "''" ++ "'"
  | .str s => "'" ++ ReplaceAll s "'" "''" ++ "'"
  | .time t => "'" ++ t.formatDateTime ++ "'"
  | .other formatted => formatted

/-- The file name built in `BackupDataToFile`. -/
def backupFileName (task : CheckTask) (now : Time) : String :=
  "backup_" ++ task.DatabaseName ++ "_" ++ task.TableName ++ "_" ++ now.formatStamp ++ ".sql"

/-- Reading a rendered literal back: drop the first and the last character,
then replace every doubled quote by one quote. -/
def unquoteLiteral (lit : String) : String :=
  ReplaceAll ⟨(lit.data.drop 1).dropLast⟩ "''" "'"

/-! ## Task file (`readTasksFromFile`) -/

/-- The scanning loop of `readTasksFromFile` over the lines `scanner.Text()`
yields: `lineNum` lines have been read and `tasks` collected so far. -/
def readTasksLoop : Nat → List CheckTask → List String → Except GoError (List CheckTask)
  | _, tasks, [] => .ok tasks
  | lineNum, tasks, text :: rest =>
    let lineNum := lineNum + 1
    let line := TrimSpace text
    if line = "" ∨ HasPrefix line "#" then readTasksLoop lineNum tasks rest
    else
      let fields := Split line ','
      if fields.length ≠ 5 then
        .error (.msg ("第 " ++ toString lineNum ++ " 行格式错误：需要5个字段，实际有 " ++
          toString fields.length ++ " 个"))
      else
        let fields := fields.map TrimSpace
        match Atoi (fields.getD 4 "") with
        | .error err => .error (.wrap ("第 " ++ toString lineNum ++ " 行预期行数格式错误: ") err)
        | .ok expectedCount =>
          readTasksLoop lineNum
            (tasks ++ [{ TargetDBHost := fields.getD 0 "", DatabaseName := fields.getD 1 "",
                         TableName := fields.getD 2 "", SearchCondition := fields.getD 3 "",
                         ExpectedRowCount := expectedCount }]) rest

/-- Model of `readTasksFromFile`: `file` is what `os.Open` and the scanner give,
an error of opening, or the scanned lines with the value of `scanner.Err()`. -/
def readTasksFromFile (filename : String)
    (file : Except GoError (List String × Option GoError)) : Except GoError (List CheckTask) :=
  match file with
  | .error err => .error (.wrap ("无法打开文件 " ++ filename ++ ": ") err)
  | .ok (lines, scanErr) =>
    match readTasksLoop 0 [] lines with
    | .error err => .error err
    | .ok tasks =>
      match scanErr with
      | some err => .error (.wrap "读取文件时出错: " err)
      | none => .ok tasks

/-- A line the loader passes over: blank, or starting with `#`, once the white
space around it is trimmed. -/
def isSkippedLine (text : String) : Bool :=
  decide (TrimSpace text = "") || (TrimSpace text).data.head? == some '#'

/-- The task a line with five comma-separated fields and an integer fifth field
stands for: the fields with the white space around them trimmed. -/
def lineTask (text : String) : Option CheckTask :=
  match Split (TrimSpace text) ',' with
  | [host, database, table, condition, count] =>
    match Atoi (TrimSpace count) with
    | .ok n => some ⟨TrimSpace host, TrimSpace database, TrimSpace table, TrimSpace condition, n⟩
    | .error _ => none
  | _ => none

/-- The error cites the line number `n`: it is one of the two errors the loader
builds, both of which start with the number. -/
def citesLine (e : GoError) (n : Nat) : Prop :=
  (∃ k : Nat, e = .msg ("第 " ++ toString n ++ " 行格式错误：需要5个字段，实际有 " ++
      toString k ++ " 个")) ∨
  (∃ cause : GoError, e = .wrap ("第 " ++ toString n ++ " 行预期行数格式错误: ") cause)

/-! ## The outside world -/

/-- A `*sql.DB` handle; `id` is the length of the log when `sql.Open` made it,
so handles of different calls differ. -/
structure DB where
  id : Nat
  dsn : String
  deriving DecidableEq, Repr

/-- What `db.Query` hands back: the answer of `rows.Columns()`, for every
`rows.Next()` that returns `true` the outcome of `rows.Scan`, and the value of
`rows.Err()` once `rows.Next()` has returned `false`. -/
structure Rows where
  columns : Except GoError (List String)
  rows : List (Except GoError (List Value))
  err : Option GoError

/-- The two methods whose invocation and return the log records. -/
inductive Call where
  | BackupDataToFile (db : DB) (task : CheckTask) (archiveColumn dataType : String)
  | DeleteDataByCondition (db : DB) (task : CheckTask) (archiveColumn dataType : String)
  deriving DecidableEq, Repr

/-- What the program does to the world, in order.  A write carries the error
`file.WriteString` returned, which the program does not look at. -/
inductive Event where
  | sqlOpen (dsn : String)
  | ping (db : DB)
  | queryRow (db : DB) (query : String) (args : List String)
  | query (db : DB) (query : String)
  | exec (db : DB) (stmt : String) (args : List String)
  | mkdirAll (dir : String)
  | create (path : String)
  | writeString (path : String) (text : String) (err : Option GoError)
  | rowsClose (db : DB)
  | fileClose (path : String)
  | enter (c : Call)
  | leave (c : Call) (ok : Bool)
  deriving DecidableEq, Repr

/-- The environment: library functions taken as given, and the answers of the
database servers, the clock and the file system, each a function of the events
so far and of the request. -/
structure World where
  lower : Char → Char
  pathJoin : String → String → String
  now : List Event → Time
  sqlOpen : List Event → String → Option GoError
  ping : List Event → DB → Option GoError
  scanString : List Event → DB → String → List String → Except GoError String
  scanInt : List Event → DB → String → List String → Except GoError Int
  query : List Event → DB → String → Except GoError Rows
  exec : List Event → DB → String → List String → Except GoError (Except GoError Int)
  mkdirAll : List Event → String → Option GoError
  create : List Event → String → Option GoError
  writeString : List Event → String → String → Option GoError

/-- Model of `DatabaseManager`; the Go map is a list of key-value pairs with at
most one pair per key. -/
structure DatabaseManager where
  config : Config
  historyDB : Option DB
  targetDBs : List (String × DB)
  deriving DecidableEq, Repr

/-- The manager together with the log of events. -/
structure State where
  dm : DatabaseManager
  log : List Event
  deriving DecidableEq, Repr

/-- Append an event to the log. -/
def State.emit (s : State) (e : Event) : State := { s with log := s.log ++ [e] }

/-- Model of `NewDatabaseManager`. -/
def NewDatabaseManager (config : Config) : DatabaseManager :=
  { config := config, historyDB := none, targetDBs := [] }

/-- Assignment `m[key] = db` on the Go map. -/
def mapInsert (m : List (String × DB)) (key : String) (db : DB) : List (String × DB) :=
  (key, db) :: m.filter (fun p => p.1 ≠ key)

/-- Model of `ConnectHistoryDB`. -/
def ConnectHistoryDB (w : World) (s : State) : Option GoError × State :=
  let c := s.dm.config.HistoryArchiveDB
  let dsn := c.Username ++ ":" ++ c.Password ++ "@tcp(" ++ c.Host ++ ":" ++ toString c.Port ++
    ")/" ++ c.Database ++ "?parseTime=true"
  let s1 := s.emit (.sqlOpen dsn)
  match w.sqlOpen s.log dsn with
  | some err => (some (.wrap "连接历史归档数据库失败: " err), s1)
  | none =>
    let db : DB := ⟨s.log.length, dsn⟩
    let s2 := s1.emit (.ping db)
    match w.ping s1.log db with
    | some err => (some (.wrap "历史归档数据库连接测试失败: " err), s2)
    | none => (none, { s2 with dm := { s2.dm with historyDB := some db } })

/-- Model of `ConnectTargetDB`. -/
def ConnectTargetDB (w : World) (s : State) (host database username password : String) :
    Except GoError DB × State :=
  let key := host ++ "-" ++ database
  match s.dm.targetDBs.lookup key with
  | some db => (.ok db, s)
  | none =>
    let dsn := username ++ ":" ++ password ++ "@tcp(" ++ host ++ ")/" ++ database ++
      "?parseTime=true"
    let s1 := s.emit (.sqlOpen dsn)
    match w.sqlOpen s.log dsn with
    | some err =>
      (.error (.wrap ("连接目标数据库失败 " ++ host ++ "/" ++ database ++ ": ") err), s1)
    | none =>
      let db : DB := ⟨s.log.length, dsn⟩
      let s2 := s1.emit (.ping db)
      match w.ping s1.log db with
      | some err =>
        (.error (.wrap ("目标数据库连接测试失败 " ++ host ++ "/" ++ database ++ ": ") err), s2)
      | none =>
        (.ok db, { s2 with dm := { s2.dm with targetDBs := mapInsert s2.dm.targetDBs key db } })

/-- Model of `GetArchiveColumnName`.  With no history connection Go stops with a
nil-pointer panic, which the model reports as an error. -/
def GetArchiveColumnName (w : World) (s : State) (dbName tableName : String) :
    Except GoError String × State :=
  let dbNamePre := extractNamePrefix dbName
  let tableNamePre := extractNamePrefix tableName
  let query := "SELECT archive_column_name FROM " ++ s.dm.config.HistoryArchiveDB.Table ++
    " WHERE table_name_pre = ? AND db_name_pre = ?"
  match s.dm.historyDB with
  | none => (.error (.msg "panic: nil pointer dereference"), s)
  | some db =>
    let s1 := s.emit (.queryRow db query [tableNamePre, dbNamePre])
    match w.scanString s.log db query [tableNamePre, dbNamePre] with
    | .error err =>
      if err = .ErrNoRows then
        (.error (.msg ("未找到匹配的归档列名，数据库前缀: " ++ dbNamePre ++ ", 表前缀: " ++
          tableNamePre)), s1)
      else (.error (.wrap "查询归档列名失败: " err), s1)
    | .ok archiveColumnName => (.ok archiveColumnName, s1)

/-- Model of `GetColumnDataType`. -/
def GetColumnDataType (w : World) (s : State) (db : DB) (database table column : String) :
    Except GoError String × State :=
  let query := "SELECT DATA_TYPE FROM INFORMATION_SCHEMA.COLUMNS \n\t\t\t  " ++
    "WHERE TABLE_SCHEMA = ? AND TABLE_NAME = ? AND COLUMN_NAME = ?"
  let s1 := s.emit (.queryRow db query [database, table, column])
  match w.scanString s.log db query [database, table, column] with
  | .error err => (.error (.wrap "获取列数据类型失败: " err), s1)
  | .ok dataType => (.ok dataType, s1)

/-- The query text and the bound arguments `CountRowsByCondition` builds, or the
error of its last branch. -/
def countQuery (lower : Char → Char) (table column condition dataType : String) :
    Except GoError (String × List String) :=
  if isStringType lower dataType then
    .ok ("SELECT COUNT(*) FROM " ++ table ++ " WHERE " ++ column ++ " LIKE ?", [condition ++ "%"])
  else if isDateTimeType lower dataType then
    .ok ("SELECT COUNT(*) FROM " ++ table ++ " WHERE " ++ column ++
        " >= STR_TO_DATE(?, '%Y%m%d') \n\t\t\t\t\t\t\t AND " ++ column ++
        " < STR_TO_DATE(?, '%Y%m%d') + INTERVAL 1 DAY", [condition, condition])
  else .error (.msg ("不支持的数据类型: " ++ dataType))

/-- Model of `CountRowsByCondition`. -/
def CountRowsByCondition (w : World) (s : State) (db : DB)
    (table column condition dataType : String) : Except GoError Int × State :=
  match countQuery w.lower table column condition dataType with
  | .error err => (.error err, s)
  | .ok (query, args) => (w.scanInt s.log db query args, s.emit (.queryRow db query args))

/-- The `whereClause` of `BackupDataToFile`; it stays empty when neither test
succeeds. -/
def backupWhereClause (lower : Char → Char) (archiveColumn condition dataType : String) :
    String :=
  if isStringType lower dataType then
    "WHERE " ++ archiveColumn ++ " LIKE '" ++ condition ++ "%'"
  else if isDateTimeType lower dataType then
    "WHERE " ++ archiveColumn ++ " >= STR_TO_DATE('" ++ condition ++
      "', '%Y%m%d') \n\t\t\t\t\t\t\t\t   AND " ++ archiveColumn ++ " < STR_TO_DATE('" ++
      condition ++ "', '%Y%m%d') + INTERVAL 1 DAY"
  else ""

/-- One `file.WriteString`: the outcome is recorded and not acted upon. -/
def writeString (w : World) (s : State) (path text : String) : State :=
  s.emit (.writeString path text (w.writeString s.log path text))

/-- The `for rows.Next()` loop of `BackupDataToFile`. -/
def backupRows (w : World) (path table : String) (columns : List String) :
    List (Except GoError (List Value)) → Nat → State → Except GoError Nat × State
  | [], rowCount, s => (.ok rowCount, s)
  | .error err :: _, _, s => (.error (.wrap "扫描行数据失败: " err), s)
  | .ok values :: rest, rowCount, s =>
    let insertSQL := "INSERT INTO " ++ table ++ " (" ++ Join columns ", " ++ ") VALUES (" ++
      Join (values.map renderValue) ", " ++ ");\n"
    backupRows w path table columns rest (rowCount + 1) (writeString w s path insertSQL)

/-- The body of `BackupDataToFile`; the deferred `rows.Close()` and
`file.Close()` run at every return that follows their `defer`. -/
def backupBody (w : World) (s : State) (db : DB) (task : CheckTask)
    (archiveColumn dataType : String) : Except GoError String × State :=
  let dir := s.dm.config.BackupDir
  let s1 := s.emit (.mkdirAll dir)
  match w.mkdirAll s.log dir with
  | some err => (.error (.wrap "创建备份目录失败: " err), s1)
  | none =>
    let filename := backupFileName task (w.now s1.log)
    let path := w.pathJoin dir filename
    let s2 := s1.emit (.create path)
    match w.create s1.log path with
    | some err => (.error (.wrap "创建备份文件失败: " err), s2)
    | none =>
      let s3 := writeString w s2 path
        ("-- 备份时间: " ++ (w.now s2.log).formatDateTime ++ "\n")
      let s4 := writeString w s3 path ("-- 源数据库: " ++ task.DatabaseName ++ "\n")
      let s5 := writeString w s4 path ("-- 源表: " ++ task.TableName ++ "\n")
      let s6 := writeString w s5 path ("-- 条件: " ++ task.SearchCondition ++ "\n")
      let s7 := writeString w s6 path ("-- 归档列: " ++ archiveColumn ++ "\n\n")
      let whereClause := backupWhereClause w.lower archiveColumn task.SearchCondition dataType
      let query := "SELECT * FROM " ++ task.TableName ++ " " ++ whereClause
      let s8 := s7.emit (.query db query)
      match w.query s7.log db query with
      | .error err => (.error (.wrap "查询备份数据失败: " err), s8.emit (.fileClose path))
      | .ok rows =>
        match rows.columns with
        | .error err =>
          (.error (.wrap "获取列信息失败: " err), (s8.emit (.rowsClose db)).emit (.fileClose path))
        | .ok columns =>
          match backupRows w path task.TableName columns rows.rows 0 s8 with
          | (.error err, s9) => (.error err, (s9.emit (.rowsClose db)).emit (.fileClose path))
          | (.ok rowCount, s9) =>
            let s10 := writeString w s9 path
              ("\n-- 备份完成，共备份 " ++ toString rowCount ++ " 行数据\n")
            (.ok path, (s10.emit (.rowsClose db)).emit (.fileClose path))

/-- Model of `BackupDataToFile`, with its invocation and its return logged. -/
def BackupDataToFile (w : World) (s : State) (db : DB) (task : CheckTask)
    (archiveColumn dataType : String) : Except GoError String × State :=
  let c := Call.BackupDataToFile db task archiveColumn dataType
  match backupBody w (s.emit (.enter c)) db task archiveColumn dataType with
  | (.error err, s1) => (.error err, s1.emit (.leave c false))
  | (.ok path, s1) => (.ok path, s1.emit (.leave c true))

/-- The `whereClause` and `args` of `DeleteDataByCondition`, or the error of its
last branch. -/
def deleteWhereClause (lower : Char → Char) (archiveColumn condition dataType : String) :
    Except GoError (String × List String) :=
  if isStringType lower dataType then
    .ok ("WHERE " ++ archiveColumn ++ " LIKE ?", [condition ++ "%"])
  else if isDateTimeType lower dataType then
    .ok ("WHERE " ++ archiveColumn ++ " >= STR_TO_DATE(?, '%Y%m%d') \n\t\t\t\t\t\t\t\t   AND " ++
        archiveColumn ++ " < STR_TO_DATE(?, '%Y%m%d') + INTERVAL 1 DAY", [condition, condition])
  else .error (.msg ("不支持的数据类型: " ++ dataType))

/-- The body of `DeleteDataByCondition`. -/
def deleteBody (w : World) (s : State) (db : DB) (task : CheckTask)
    (archiveColumn dataType : String) : Except GoError Int × State :=
  match deleteWhereClause w.lower archiveColumn task.SearchCondition dataType with
  | .error err => (.error err, s)
  | .ok (whereClause, args) =>
    let deleteSQL := "DELETE FROM " ++ task.TableName ++ " " ++ whereClause
    let s1 := s.emit (.exec db deleteSQL args)
    match w.exec s.log db deleteSQL args with
    | .error err => (.error (.wrap "删除数据失败: " err), s1)
    | .ok (.error err) => (.error (.wrap "获取删除行数失败: " err), s1)
    | .ok (.ok affected) => (.ok affected, s1)

/-- Model of `DeleteDataByCondition`, with its invocation and its return logged. -/
def DeleteDataByCondition (w : World) (s : State) (db : DB) (task : CheckTask)
    (archiveColumn dataType : String) : Except GoError Int × State :=
  let c := Call.DeleteDataByCondition db task archiveColumn dataType
  match deleteBody w (s.emit (.enter c)) db task archiveColumn dataType with
  | (.error err, s1) => (.error err, s1.emit (.leave c false))
  | (.ok n, s1) => (.ok n, s1.emit (.leave c true))

/-! ## Orchestration (`main.go`) -/

/-- Model of `processTask`. -/
def processTask (w : World) (s : State) (task : CheckTask) : Except GoError CheckResult × State :=
  match GetArchiveColumnName w s task.DatabaseName task.TableName with
  | (.error err, s1) => (.error (.wrap "获取归档列名失败: " err), s1)
  | (.ok archiveColumn, s1) =>
    match ConnectTargetDB w s1 task.TargetDBHost task.DatabaseName
        s1.dm.config.TargetDBDefaults.Username s1.dm.config.TargetDBDefaults.Password with
    | (.error err, s2) => (.error (.wrap "连接目标数据库失败: " err), s2)
    | (.ok targetDB, s2) =>
      match GetColumnDataType w s2 targetDB task.DatabaseName task.TableName archiveColumn with
      | (.error err, s3) => (.error (.wrap "获取列数据类型失败: " err), s3)
      | (.ok dataType, s3) =>
        match CountRowsByCondition w s3 targetDB task.TableName archiveColumn
            task.SearchCondition dataType with
        | (.error err, s4) => (.error (.wrap "统计行数失败: " err), s4)
        | (.ok actualCount, s4) =>
          (.ok { Task := task, ActualCount := actualCount,
                 ExpectedCount := task.ExpectedRowCount, ArchiveColumn := archiveColumn,
                 IsMatch := decide (actualCount = task.ExpectedRowCount) }, s4)

/-- Model of `performDeletion`; `none` is the `nil` error. -/
def performDeletion (w : World) (s : State) (result : CheckResult) : Option GoError × State :=
  match ConnectTargetDB w s result.Task.TargetDBHost result.Task.DatabaseName
      s.dm.config.TargetDBDefaults.Username s.dm.config.TargetDBDefaults.Password with
  | (.error err, s1) => (some (.wrap "连接目标数据库失败: " err), s1)
  | (.ok targetDB, s1) =>
    match GetColumnDataType w s1 targetDB result.Task.DatabaseName result.Task.TableName
        result.ArchiveColumn with
    | (.error err, s2) => (some (.wrap "获取列数据类型失败: " err), s2)
    | (.ok dataType, s2) =>
      match BackupDataToFile w s2 targetDB result.Task result.ArchiveColumn dataType with
      | (.error err, s3) => (some (.wrap "备份数据失败: " err), s3)
      | (.ok _, s3) =>
        match DeleteDataByCondition w s3 targetDB result.Task result.ArchiveColumn dataType with
        | (.error err, s4) => (some (.wrap "删除数据失败: " err), s4)
        | (.ok _, s4) => (none, s4)

/-! ## Notions used in the statements -/

/-- The event is a statement executed with `db.Exec`. -/
def Event.isExec : Event → Bool
  | .exec _ _ _ => true
  | _ => false

/-- The event is the invocation of `DeleteDataByCondition`. -/
def Event.isEnterDelete : Event → Bool
  | .enter (.DeleteDataByCondition _ _ _ _) => true
  | _ => false

/-- A world in which every request succeeds: the archive column is
`created_at`, column types read as `dataType`, counts and deleted rows are `3`,
the backup query returns `rows`, and every write to a file returns `writeErr`. -/
def World.answering (dataType : String) (rows : Rows) (writeErr : Option GoError) : World where
  lower := Char.toLower
  pathJoin := fun dir file => dir ++ "/" ++ file
  now := fun _ => ⟨2024, 1, 15, 9, 5, 7⟩
  sqlOpen := fun _ _ => none
  ping := fun _ _ => none
  scanString := fun _ _ query _ =>
    if query = "SELECT archive_column_name FROM m WHERE table_name_pre = ? AND db_name_pre = ?"
    then .ok "created_at" else .ok dataType
  scanInt := fun _ _ _ _ => .ok 3
  query := fun _ _ _ => .ok rows
  exec := fun _ _ _ _ => .ok (.ok 3)
  mkdirAll := fun _ _ => none
  create := fun _ _ => none
  writeString := fun _ _ _ => writeErr

/-- A configuration for the examples. -/
def exampleConfig : Config :=
  { HistoryArchiveDB := ⟨"hist", 3306, "u", "p", "archive", "m"⟩,
    TargetDBDefaults := ⟨"u", "p"⟩,
    BackupDir := "bk" }

/-- The state of a fresh manager with nothing logged. -/
def State.initial (config : Config) : State := ⟨NewDatabaseManager config, []⟩

/-- The event is neither an `Exec` nor the invocation or return of a logged
method. -/
def Event.isPlain : Event → Bool
  | .exec _ _ _ => false
  | .enter _ => false
  | .leave _ _ => false
  | _ => true

/-- The state `s'` comes from `s` by logging plain events only. -/
def PlainExt (s s' : State) : Prop :=
  ∃ evs, s'.log = s.log ++ evs ∧ (∀ e ∈ evs, e.isPlain = true) ∧ s'.dm = s.dm

/-- The event belongs to a deletion: a statement executed with `db.Exec`, or
the invocation of `DeleteDataByCondition`. -/
def Event.isDeletion (e : Event) : Bool := e.isExec || e.isEnterDelete

/-! ## Comparing the three predicates -/

/-- Every run of white space becomes one blank; `inSpace` says that the
preceding character was white space. -/
def collapseSpace : Bool → List Char → List Char
  | _, [] => []
  | inSpace, c :: cs =>
    if isSpace c then (if inSpace then collapseSpace true cs else ' ' :: collapseSpace true cs)
    else c :: collapseSpace false cs

/-- A statement text with its runs of white space collapsed. -/
def normalizeSpace (text : String) : String := ⟨collapseSpace false text.data⟩

/-- Whether the text read so far ends in white space. -/
def spaceAfter : Bool → List Char → Bool
  | inSpace, [] => inSpace
  | _, c :: cs => spaceAfter (isSpace c) cs

/-- The statement a parameterised text and its arguments stand for: each `?`
in turn is replaced by the next argument, written as a string literal the way
`renderValue` writes one. -/
def bindChars : List Char → List String → List Char
  | [], _ => []
  | c :: cs, args =>
    if c = '?' then
      match args with
      | a :: rest => (renderValue (.str a)).data ++ bindChars cs rest
      | [] => c :: bindChars cs []
    else c :: bindChars cs args

/-- The statement a parameterised clause and its arguments stand for. -/
def bindPlaceholders (clause : String) (args : List String) : String :=
  ⟨bindChars clause.data args⟩

/-- The arguments of one call of `ConnectTargetDB`. -/
structure ConnectArgs where
  host : String
  database : String
  username : String
  password : String
  deriving DecidableEq, Repr

/-- A sequence of `ConnectTargetDB` calls: the calls made with their results,
and the state they leave. -/
def connectAll (w : World) (s : State) (calls : List ConnectArgs) :
    List (ConnectArgs × Except GoError DB) × State :=
  calls.foldl
    (fun acc c =>
      ((acc.1 ++ [(c, (ConnectTargetDB w acc.2 c.host c.database c.username c.password).1)]),
        (ConnectTargetDB w acc.2 c.host c.database c.username c.password).2))
    ([], s)

/-! # Theorems -/

/-! ## Lemmas on the pattern -/

theorem matchHere_endText (s : List Char) :
    matchHere [.endText] s = if s = [] then some 0 else none := by
  cases s <;> simp [matchHere]

theorem matchPlus_digit_all (s : List Char) (hne : s ≠ []) (hd : ∀ c ∈ s, c.isDigit = true) :
    matchPlus .digit (matchHere [.endText]) s = some s.length := by
  induction s with
  | nil => exact absurd rfl hne
  | cons c cs ih =>
    have hc : c.isDigit = true := hd c (List.mem_cons_self _ _)
    have hcs : ∀ x ∈ cs, x.isDigit = true := fun x hx => hd x (List.mem_cons_of_mem _ hx)
    cases cs with
    | nil => simp [matchPlus, Atom.test, hc, matchHere_endText]
    | cons e es =>
      have := ih (by simp) hcs
      simp [matchPlus, Atom.test, hc] at this ⊢
      simp [this]

theorem matchPlus_digit_some (s : List Char) (n : Nat)
    (h : matchPlus .digit (matchHere [.endText]) s = some n) :
    s ≠ [] ∧ ∀ c ∈ s, c.isDigit = true := by
  induction s generalizing n with
  | nil => simp [matchPlus] at h
  | cons c cs ih =>
    refine ⟨by simp, ?_⟩
    by_cases hc : c.isDigit = true
    · simp only [matchPlus, Atom.test, hc, if_true] at h
      cases hm : matchPlus .digit (matchHere [.endText]) cs with
      | some m =>
        have := (ih m hm).2
        intro x hx
        rcases List.mem_cons.1 hx with rfl | hx
        · exact hc
        · exact this x hx
      | none =>
        rw [hm] at h
        simp only [matchHere_endText] at h
        by_cases hcs : cs = []
        · subst hcs
          intro x hx
          simp at hx
          subst hx
          exact hc
        · simp [hcs] at h
    · simp [matchPlus, Atom.test, hc] at h

theorem matchHere_namePrefixRe_cons (c : Char) (cs : List Char) :
    matchHere namePrefixRe (c :: cs) =
      if (c == '_') = true then (matchPlus .digit (matchHere [.endText]) cs).map (· + 1)
      else none := rfl

theorem matchHere_namePrefixRe_some (s : List Char) (n : Nat)
    (h : matchHere namePrefixRe s = some n) : IsSuffixForm s := by
  cases s with
  | nil => simp [namePrefixRe, matchHere] at h
  | cons c cs =>
    rw [matchHere_namePrefixRe_cons] at h
    by_cases hc : c = '_'
    · subst hc
      simp only [beq_self_eq_true, if_true] at h
      cases hm : matchPlus .digit (matchHere [.endText]) cs with
      | none => rw [hm] at h; simp at h
      | some m =>
        have := matchPlus_digit_some cs m hm
        exact ⟨cs, rfl, this.1, this.2⟩
    · simp [hc] at h

theorem matchHere_namePrefixRe_form (d : List Char) (hne : d ≠ [])
    (hd : ∀ c ∈ d, c.isDigit = true) :
    matchHere namePrefixRe ('_' :: d) = some (d.length + 1) := by
  rw [matchHere_namePrefixRe_cons, matchPlus_digit_all d hne hd]
  simp

theorem replaceAllAux_skip_all (s : List Char) (b : Bool) :
    replaceAllAux namePrefixRe [] s.length b s = [] := by
  induction s with
  | nil => simp [replaceAllAux, namePrefixRe, matchHere]
  | cons c cs ih => simpa [replaceAllAux] using ih

theorem replaceAllAux_no_match (s : List Char) (b : Bool)
    (h : ∀ t, t <:+ s → ¬ IsSuffixForm t) :
    replaceAllAux namePrefixRe [] 0 b s = s := by
  induction s generalizing b with
  | nil => simp [replaceAllAux, namePrefixRe, matchHere]
  | cons c cs ih =>
    have hnone : matchHere namePrefixRe (c :: cs) = none := by
      cases hm : matchHere namePrefixRe (c :: cs) with
      | none => rfl
      | some n => exact absurd (matchHere_namePrefixRe_some _ n hm) (h _ (List.suffix_refl _))
    have ih' := ih false (fun t ht => h t (ht.trans (List.suffix_cons c cs)))
    simp [replaceAllAux, hnone, ih']

theorem not_isSuffixForm_append (c : Char) (p d : List Char) :
    ¬ IsSuffixForm (c :: (p ++ '_' :: d)) := by
  rintro ⟨e, he, -, hd⟩
  have hmem : '_' ∈ e := by
    have : e = p ++ '_' :: d := (List.cons.inj he).2.symm
    simp [this]
  have := hd '_' hmem
  revert this
  decide

theorem replaceAllAux_strip (p d : List Char) (b : Bool) (hne : d ≠ [])
    (hd : ∀ c ∈ d, c.isDigit = true) :
    replaceAllAux namePrefixRe [] 0 b (p ++ '_' :: d) = p := by
  induction p generalizing b with
  | nil =>
    simp only [List.nil_append, replaceAllAux, matchHere_namePrefixRe_form d hne hd]
    simpa using replaceAllAux_skip_all d true
  | cons c p ih =>
    have hnone : matchHere namePrefixRe (c :: (p ++ '_' :: d)) = none := by
      cases hm : matchHere namePrefixRe (c :: (p ++ '_' :: d)) with
      | none => rfl
      | some n => exact absurd (matchHere_namePrefixRe_some _ n hm) (not_isSuffixForm_append c p d)
    simp [replaceAllAux, hnone, ih false]

/-- C5: `extractNamePrefix` strips one trailing `_<digits>` suffix, and leaves every
name that has no such suffix unchanged. -/
theorem extractNamePrefix_strips_once :
    (∀ p d : String, d ≠ "" → (∀ c ∈ d.data, c.isDigit = true) →
        extractNamePrefix (p ++ "_" ++ d) = p) ∧
    (∀ name : String,
        (¬ ∃ p d : String, d ≠ "" ∧ (∀ c ∈ d.data, c.isDigit = true) ∧ name = p ++ "_" ++ d) →
        extractNamePrefix name = name) ∧
    extractNamePrefix "orders_12" = "orders" ∧
    extractNamePrefix "orders_12_3" = "orders_12" ∧
    extractNamePrefix "orders_03" = "orders" ∧
    extractNamePrefix "orders" = "orders" ∧
    extractNamePrefix "orders_" = "orders_" := by
  refine ⟨?_, ?_, by decide, by decide, by decide, by decide, by decide⟩
  · intro p d hne hd
    have hne' : d.data ≠ [] := fun h => hne (String.ext h)
    apply String.ext
    show replaceAllAux namePrefixRe [] 0 false (p ++ "_" ++ d).data = p.data
    have : (p ++ "_" ++ d).data = p.data ++ '_' :: d.data := by
      simp [String.data_append]
    rw [this]
    exact replaceAllAux_strip p.data d.data false hne' hd
  · intro name hno
    apply String.ext
    show replaceAllAux namePrefixRe [] 0 false name.data = name.data
    apply replaceAllAux_no_match
    rintro t ⟨p, hp⟩ ⟨d, rfl, hdne, hd⟩
    apply hno
    refine ⟨⟨p⟩, ⟨d⟩, ?_, hd, ?_⟩
    · intro h
      exact hdne (congrArg String.data h)
    · apply String.ext
      simp [String.data_append, ← hp]

/-- Witness for C5 at the names `orders_12_3` and `orders_`. -/
theorem extractNamePrefix_strips_once_witness :
    extractNamePrefix ("orders_12" ++ "_" ++ "3") = "orders_12" ∧
    extractNamePrefix "orders_" = "orders_" :=
  ⟨extractNamePrefix_strips_once.1 "orders_12" "3" (by decide) (by decide),
   extractNamePrefix_strips_once.2.2.2.2.2.2⟩

/-! ## Lemmas on classification -/

theorem containsChars_iff (s sub : List Char) : containsChars s sub = true ↔ sub <:+: s := by
  unfold containsChars
  rw [List.any_eq_true, List.infix_iff_prefix_suffix]
  constructor
  · rintro ⟨t, ht, hp⟩
    exact ⟨t, List.isPrefixOf_iff_prefix.1 hp, (List.mem_tails _ _).1 ht⟩
  · rintro ⟨t, hp, ht⟩
    exact ⟨t, (List.mem_tails _ _).2 ht, List.isPrefixOf_iff_prefix.2 hp⟩

theorem isStringType_iff (lower : Char → Char) (t : String) :
    isStringType lower t = true ↔
      ∃ w ∈ ["varchar", "char", "text", "longtext", "mediumtext", "tinytext"],
        String.data w <:+: (t.data.map lower) := by
  unfold isStringType stringTypes
  rw [List.any_eq_true]
  simp only [Contains, containsChars_iff, ToLower]

theorem isDateTimeType_iff (lower : Char → Char) (t : String) :
    isDateTimeType lower t = true ↔
      ∃ w ∈ ["datetime", "timestamp", "date", "time"],
        String.data w <:+: (t.data.map lower) := by
  unfold isDateTimeType dateTimeTypes
  rw [List.any_eq_true]
  simp only [Contains, containsChars_iff, ToLower]

theorem ToLower_congr (lower f : Char → Char) (t : String)
    (h : ∀ c ∈ t.data, lower c = f c) : ToLower lower t = ToLower f t := by
  unfold ToLower
  rw [List.map_congr_left h]

theorem classifyType_congr (lower f : Char → Char) (t : String)
    (h : ∀ c ∈ t.data, lower c = f c) : classifyType lower t = classifyType f t := by
  unfold classifyType isStringType isDateTimeType
  rw [ToLower_congr lower f t h]

/-- C6: classification is a substring match on the lower-cased type name, string-like
vocabulary first, then the date-like one, otherwise unsupported. -/
theorem classifyType_first_match_wins (lower : Char → Char) :
    (∀ t : String, classifyType lower t = .StringLike ↔
        ∃ w ∈ ["varchar", "char", "text", "longtext", "mediumtext", "tinytext"],
          String.data w <:+: (t.data.map lower)) ∧
    (∀ t : String, classifyType lower t = .DateTimeLike ↔
        (¬ ∃ w ∈ ["varchar", "char", "text", "longtext", "mediumtext", "tinytext"],
          String.data w <:+: (t.data.map lower)) ∧
        ∃ w ∈ ["datetime", "timestamp", "date", "time"],
          String.data w <:+: (t.data.map lower)) ∧
    (∀ t : String, classifyType lower t = .Unsupported ↔
        (¬ ∃ w ∈ ["varchar", "char", "text", "longtext", "mediumtext", "tinytext"],
          String.data w <:+: (t.data.map lower)) ∧
        ¬ ∃ w ∈ ["datetime", "timestamp", "date", "time"],
          String.data w <:+: (t.data.map lower)) ∧
    ((∀ c : Char, c.val < 128 → lower c = c.toLower) →
        classifyType lower "VARCHAR(255)" = .StringLike ∧
        classifyType lower "DATETIME" = .DateTimeLike ∧
        classifyType lower "TIMESTAMP(3)" = .DateTimeLike ∧
        classifyType lower "BIGINT" = .Unsupported) := by
  refine ⟨?_, ?_, ?_, ?_⟩
  · intro t
    rw [← isStringType_iff]
    unfold classifyType
    by_cases hs : isStringType lower t = true
    · simp [hs]
    · by_cases hd : isDateTimeType lower t = true <;> simp [hs, hd]
  · intro t
    rw [← isStringType_iff, ← isDateTimeType_iff]
    unfold classifyType
    by_cases hs : isStringType lower t = true
    · simp [hs]
    · by_cases hd : isDateTimeType lower t = true <;> simp [hs, hd]
  · intro t
    rw [← isStringType_iff, ← isDateTimeType_iff]
    unfold classifyType
    by_cases hs : isStringType lower t = true
    · simp [hs]
    · by_cases hd : isDateTimeType lower t = true <;> simp [hs, hd]
  · intro hl
    refine ⟨?_, ?_, ?_, ?_⟩
    · rw [classifyType_congr lower Char.toLower _ (fun c hc => hl c (by revert c; decide))]
      decide
    · rw [classifyType_congr lower Char.toLower _ (fun c hc => hl c (by revert c; decide))]
      decide
    · rw [classifyType_congr lower Char.toLower _ (fun c hc => hl c (by revert c; decide))]
      decide
    · rw [classifyType_congr lower Char.toLower _ (fun c hc => hl c (by revert c; decide))]
      decide

/-- Witness for C6 with the ASCII lower-casing map. -/
theorem classifyType_first_match_wins_witness :
    classifyType Char.toLower "VARCHAR(255)" = .StringLike ∧
    classifyType Char.toLower "DATETIME" = .DateTimeLike ∧
    classifyType Char.toLower "TIMESTAMP(3)" = .DateTimeLike ∧
    classifyType Char.toLower "BIGINT" = .Unsupported :=
  (classifyType_first_match_wins Char.toLower).2.2.2 (fun _ _ => rfl)

/-! ## Lemmas on value rendering -/

/-- Doubling of every single quote, character by character. -/
theorem replaceAux_quote_double (s : List Char) :
    replaceAux ['\''] ['\'', '\''] 0 s =
      s.flatMap (fun c => if c = '\'' then ['\'', '\''] else [c]) := by
  induction s with
  | nil => simp [replaceAux]
  | cons c cs ih =>
    by_cases hc : c = '\''
    · subst hc
      simp [replaceAux, List.isPrefixOf, ih]
    · have hc' : ¬ '\'' = c := fun h => hc h.symm
      simp [replaceAux, List.isPrefixOf, ih, hc, hc']

theorem replaceAux_quote_halve (s : List Char) :
    replaceAux ['\'', '\''] ['\''] 0
        (s.flatMap (fun c => if c = '\'' then ['\'', '\''] else [c])) = s := by
  induction s with
  | nil => simp [replaceAux]
  | cons c cs ih =>
    by_cases hc : c = '\''
    · subst hc
      have : ('\'' :: cs).flatMap (fun c => if c = '\'' then ['\'', '\''] else [c]) =
          '\'' :: '\'' :: cs.flatMap (fun c => if c = '\'' then ['\'', '\''] else [c]) := by
        simp [List.flatMap_cons]
      rw [this]
      simp only [replaceAux, List.isPrefixOf, beq_self_eq_true, Bool.and_self, Bool.true_and,
        if_true, List.length_cons, List.length_nil]
      simpa using ih
    · have hc' : ¬ '\'' = c := fun h => hc h.symm
      have : (c :: cs).flatMap (fun c => if c = '\'' then ['\'', '\''] else [c]) =
          c :: cs.flatMap (fun c => if c = '\'' then ['\'', '\''] else [c]) := by
        simp [List.flatMap_cons, hc]
      rw [this]
      simp [replaceAux, List.isPrefixOf, hc', ih]

theorem ReplaceAll_quote_data (s : String) :
    (ReplaceAll s "'" "''").data =
      s.data.flatMap (fun c => if c = '\'' then ['\'', '\''] else [c]) := by
  have : (ReplaceAll s "'" "''").data = replaceAux ['\''] ['\'', '\''] 0 s.data := rfl
  rw [this, replaceAux_quote_double]

theorem quoted_data (s : String) :
    ("'" ++ ReplaceAll s "'" "''" ++ "'").data =
      '\'' :: (s.data.flatMap (fun c => if c = '\'' then ['\'', '\''] else [c]) ++ ['\'']) := by
  simp [String.data_append, ReplaceAll_quote_data]

theorem unquoteLiteral_quoted (s : String) :
    unquoteLiteral ("'" ++ ReplaceAll s "'" "''" ++ "'") = s := by
  apply String.ext
  have h1 : (unquoteLiteral ("'" ++ ReplaceAll s "'" "''" ++ "'")).data =
      replaceAux ['\'', '\''] ['\''] 0
        ((("'" ++ ReplaceAll s "'" "''" ++ "'").data.drop 1).dropLast) := rfl
  rw [h1, quoted_data]
  simp [replaceAux_quote_halve]

/-- C10: `NULL` renders as the keyword; a textual or binary value renders between
single quotes with every inner quote doubled; reading the literal back returns the
value, so rendering is injective on such values and never yields the bare keyword. -/
theorem renderValue_quoting :
    renderValue .null = "NULL" ∧
    (∀ (v : Value) (s : String), (v = .str s ∨ v = .bytes s) →
      renderValue v =
        ⟨'\'' :: (s.data.flatMap (fun c => if c = '\'' then ['\'', '\''] else [c]) ++ ['\''])⟩ ∧
      unquoteLiteral (renderValue v) = s ∧
      renderValue v ≠ "NULL") ∧
    (∀ (v v' : Value) (s s' : String), (v = .str s ∨ v = .bytes s) →
      (v' = .str s' ∨ v' = .bytes s') → renderValue v = renderValue v' → s = s') := by
  have key : ∀ (v : Value) (s : String), (v = .str s ∨ v = .bytes s) →
      renderValue v = "'" ++ ReplaceAll s "'" "''" ++ "'" := by
    rintro v s (rfl | rfl) <;> rfl
  refine ⟨rfl, ?_, ?_⟩
  · intro v s hv
    rw [key v s hv]
    refine ⟨String.ext (quoted_data s), unquoteLiteral_quoted s, ?_⟩
    intro h
    have := congrArg String.data h
    rw [quoted_data] at this
    exact absurd (List.cons.inj this).1 (by decide)
  · intro v v' s s' hv hv' h
    rw [key v s hv, key v' s' hv'] at h
    have := congrArg unquoteLiteral h
    rwa [unquoteLiteral_quoted, unquoteLiteral_quoted] at this

/-- Witness for C10 at the textual value `O'Brien` and the binary value `NULL`. -/
theorem renderValue_quoting_witness :
    renderValue (.str "O'Brien") = "'O''Brien'" ∧
    unquoteLiteral (renderValue (.str "O'Brien")) = "O'Brien" ∧
    renderValue (.bytes "NULL") ≠ "NULL" :=
  ⟨(renderValue_quoting.2.1 (.str "O'Brien") "O'Brien" (Or.inl rfl)).1.trans (by decide),
   (renderValue_quoting.2.1 (.str "O'Brien") "O'Brien" (Or.inl rfl)).2.1,
   (renderValue_quoting.2.1 (.bytes "NULL") "NULL" (Or.inr rfl)).2.2⟩

/-! ## Lemmas on backup file names -/

theorem digitChar_inj : ∀ a, a < 10 → ∀ b, b < 10 → Nat.digitChar a = Nat.digitChar b → a = b := by
  decide

theorem appendInt_two (n : Nat) (h : n < 100) :
    appendInt n 2 = [Nat.digitChar (n / 10), Nat.digitChar (n % 10)] := by
  simp [appendInt, h]

theorem appendInt_four (n : Nat) (h : n < 10000) :
    appendInt n 4 = [Nat.digitChar (n / 1000), Nat.digitChar (n / 100 % 10),
      Nat.digitChar (n / 10 % 10), Nat.digitChar (n % 10)] := by
  simp [appendInt, h]

theorem two_digits_inj (a b : Nat) (ha : a < 100) (hb : b < 100)
    (h1 : Nat.digitChar (a / 10) = Nat.digitChar (b / 10))
    (h2 : Nat.digitChar (a % 10) = Nat.digitChar (b % 10)) : a = b := by
  have e1 := digitChar_inj (a / 10) (by omega) (b / 10) (by omega) h1
  have e2 := digitChar_inj (a % 10) (by omega) (b % 10) (by omega) h2
  omega

theorem formatStamp_data (t : Time) (h : t.Valid) :
    t.formatStamp.data =
      [Nat.digitChar (t.year / 1000), Nat.digitChar (t.year / 100 % 10),
       Nat.digitChar (t.year / 10 % 10), Nat.digitChar (t.year % 10),
       Nat.digitChar (t.month / 10), Nat.digitChar (t.month % 10),
       Nat.digitChar (t.day / 10), Nat.digitChar (t.day % 10), '_',
       Nat.digitChar (t.hour / 10), Nat.digitChar (t.hour % 10),
       Nat.digitChar (t.minute / 10), Nat.digitChar (t.minute % 10),
       Nat.digitChar (t.second / 10), Nat.digitChar (t.second % 10)] := by
  obtain ⟨hy, -, hm, -, hd, hh, hmi, hs⟩ := h
  show appendInt t.year 4 ++ appendInt t.month 2 ++ appendInt t.day 2 ++ '_' ::
    (appendInt t.hour 2 ++ appendInt t.minute 2 ++ appendInt t.second 2) = _
  rw [appendInt_four _ (by omega), appendInt_two _ (by omega), appendInt_two _ (by omega),
    appendInt_two _ (by omega), appendInt_two _ (by omega), appendInt_two _ (by omega)]
  rfl

theorem formatStamp_inj (t1 t2 : Time) (h1 : t1.Valid) (h2 : t2.Valid)
    (h : t1.formatStamp = t2.formatStamp) : t1 = t2 := by
  have hd := congrArg String.data h
  rw [formatStamp_data t1 h1, formatStamp_data t2 h2] at hd
  obtain ⟨hy1, -, hm1, -, hd1, hh1, hmi1, hs1⟩ := h1
  obtain ⟨hy2, -, hm2, -, hd2, hh2, hmi2, hs2⟩ := h2
  simp only [List.cons.injEq, and_true, true_and] at hd
  obtain ⟨a1, a2, a3, a4, b1, b2, c1, c2, d1, d2, e1, e2, f1, f2⟩ := hd
  have y1 := digitChar_inj _ (by omega) _ (by omega) a1
  have y2 := digitChar_inj _ (by omega) _ (by omega) a2
  have y3 := digitChar_inj _ (by omega) _ (by omega) a3
  have y4 := digitChar_inj _ (by omega) _ (by omega) a4
  have hyear : t1.year = t2.year := by omega
  have hmonth := two_digits_inj _ _ (by omega) (by omega) b1 b2
  have hday := two_digits_inj _ _ (by omega) (by omega) c1 c2
  have hhour := two_digits_inj _ _ (by omega) (by omega) d1 d2
  have hmin := two_digits_inj _ _ (by omega) (by omega) e1 e2
  have hsec := two_digits_inj _ _ (by omega) (by omega) f1 f2
  cases t1
  cases t2
  simp_all

theorem backupFileName_data (task : CheckTask) (t : Time) :
    (backupFileName task t).data =
      "backup_".data ++ ((task.DatabaseName ++ "_" ++ task.TableName).data ++
        ('_' :: (t.formatStamp.data ++ ".sql".data))) := by
  simp [backupFileName, String.data_append]

theorem formatStamp_length (t : Time) (h : t.Valid) : t.formatStamp.data.length = 15 := by
  rw [formatStamp_data t h]
  rfl

/-- C9, as amended: the generated name is `backup_<database>_<table>_<stamp>.sql`, and two
names are equal exactly when the timestamps agree to the second and the joined texts
`<database>_<table>` agree; for one database this means the same table. -/
theorem backupFileName_eq_iff (task1 task2 : CheckTask) (t1 t2 : Time)
    (h1 : t1.Valid) (h2 : t2.Valid) :
    backupFileName task1 t1 =
      "backup_" ++ task1.DatabaseName ++ "_" ++ task1.TableName ++ "_" ++ t1.formatStamp ++ ".sql" ∧
    t1.formatStamp.data =
      [Nat.digitChar (t1.year / 1000), Nat.digitChar (t1.year / 100 % 10),
       Nat.digitChar (t1.year / 10 % 10), Nat.digitChar (t1.year % 10),
       Nat.digitChar (t1.month / 10), Nat.digitChar (t1.month % 10),
       Nat.digitChar (t1.day / 10), Nat.digitChar (t1.day % 10), '_',
       Nat.digitChar (t1.hour / 10), Nat.digitChar (t1.hour % 10),
       Nat.digitChar (t1.minute / 10), Nat.digitChar (t1.minute % 10),
       Nat.digitChar (t1.second / 10), Nat.digitChar (t1.second % 10)] ∧
    (backupFileName task1 t1 = backupFileName task2 t2 ↔
      t1 = t2 ∧
      task1.DatabaseName ++ "_" ++ task1.TableName =
        task2.DatabaseName ++ "_" ++ task2.TableName) ∧
    (task1.DatabaseName = task2.DatabaseName →
      (backupFileName task1 t1 = backupFileName task2 t2 ↔
        t1 = t2 ∧ task1.TableName = task2.TableName)) := by
  have main : backupFileName task1 t1 = backupFileName task2 t2 ↔
      t1 = t2 ∧
      task1.DatabaseName ++ "_" ++ task1.TableName =
        task2.DatabaseName ++ "_" ++ task2.TableName := by
    constructor
    · intro h
      have hd := congrArg String.data h
      rw [backupFileName_data, backupFileName_data] at hd
      have hd := List.append_cancel_left hd
      have hlen : ('_' :: (t1.formatStamp.data ++ ".sql".data)).length =
          ('_' :: (t2.formatStamp.data ++ ".sql".data)).length := by
        simp only [List.length_cons, List.length_append, formatStamp_length t1 h1,
          formatStamp_length t2 h2]
      obtain ⟨hl, hr⟩ := List.append_inj' hd hlen
      refine ⟨?_, String.ext hl⟩
      have hr := List.append_cancel_right (List.cons.inj hr).2
      exact formatStamp_inj t1 t2 h1 h2 (String.ext hr)
    · rintro ⟨rfl, hj⟩
      apply String.ext
      rw [backupFileName_data, backupFileName_data, hj]
  refine ⟨rfl, formatStamp_data t1 h1, main, ?_⟩
  intro hdb
  rw [main, hdb]
  constructor
  · rintro ⟨ht, hj⟩
    refine ⟨ht, ?_⟩
    have hd := congrArg String.data hj
    simp only [String.data_append] at hd
    exact String.ext (List.append_cancel_left hd)
  · rintro ⟨ht, htb⟩
    rw [htb]
    exact ⟨ht, rfl⟩

/-- Witness for the amended C9 at two backups of `shop_01.orders_02` in one second. -/
theorem backupFileName_eq_iff_witness :
    backupFileName ⟨"h", "shop_01", "orders_02", "20240115", 3⟩ ⟨2024, 1, 15, 9, 5, 7⟩ =
      "backup_shop_01_orders_02_20240115_090507.sql" ∧
    (backupFileName ⟨"h", "shop_01", "orders_02", "20240115", 3⟩ ⟨2024, 1, 15, 9, 5, 7⟩ =
        backupFileName ⟨"h", "shop_01", "orders_03", "20240115", 3⟩ ⟨2024, 1, 15, 9, 5, 7⟩ ↔
      (⟨2024, 1, 15, 9, 5, 7⟩ : Time) = ⟨2024, 1, 15, 9, 5, 7⟩ ∧ "orders_02" = "orders_03") :=
  ⟨(backupFileName_eq_iff ⟨"h", "shop_01", "orders_02", "20240115", 3⟩
      ⟨"h", "shop_01", "orders_03", "20240115", 3⟩ ⟨2024, 1, 15, 9, 5, 7⟩ ⟨2024, 1, 15, 9, 5, 7⟩
      (by decide) (by decide)).1.trans (by decide),
   (backupFileName_eq_iff ⟨"h", "shop_01", "orders_02", "20240115", 3⟩
      ⟨"h", "shop_01", "orders_03", "20240115", 3⟩ ⟨2024, 1, 15, 9, 5, 7⟩ ⟨2024, 1, 15, 9, 5, 7⟩
      (by decide) (by decide)).2.2.2 rfl⟩

/-- Counterexample to C9 as stated: database `app_user` with table `log` and database
`app` with table `user_log` get the same backup file name in the same second. -/
theorem backupFileName_collision :
    backupFileName ⟨"h", "app_user", "log", "20240115", 3⟩ ⟨2024, 1, 15, 9, 5, 7⟩ =
      backupFileName ⟨"h", "app", "user_log", "20240115", 3⟩ ⟨2024, 1, 15, 9, 5, 7⟩ ∧
    ("app_user" : String) ≠ "app" ∧ ("log" : String) ≠ "user_log" := by
  decide

/-! ## Lemmas on the task file -/

theorem skip_condition_iff (text : String) :
    (TrimSpace text = "" ∨ HasPrefix (TrimSpace text) "#" = true) ↔ isSkippedLine text = true := by
  unfold isSkippedLine HasPrefix
  have hp : ("#" : String).data = ['#'] := rfl
  rw [hp]
  cases hd : (TrimSpace text).data with
  | nil => simp [List.isPrefixOf]
  | cons c cs =>
    simp only [List.isPrefixOf, List.head?_cons, Bool.or_eq_true, decide_eq_true_eq,
      Bool.and_true, beq_iff_eq, Option.some.injEq]
    constructor
    · rintro (h | h)
      · exact Or.inl h
      · exact Or.inr h.symm
    · rintro (h | h)
      · exact Or.inl h
      · exact Or.inr h.symm

theorem readTasksLoop_skip (n : Nat) (tasks : List CheckTask) (text : String)
    (rest : List String) (h : isSkippedLine text = true) :
    readTasksLoop n tasks (text :: rest) = readTasksLoop (n + 1) tasks rest := by
  have h' := (skip_condition_iff text).2 h
  simp only [readTasksLoop]
  rw [if_pos h']

theorem readTasksLoop_task (n : Nat) (tasks : List CheckTask) (text : String)
    (rest : List String) (t : CheckTask) (h : isSkippedLine text = false)
    (ht : lineTask text = some t) :
    readTasksLoop n tasks (text :: rest) = readTasksLoop (n + 1) (tasks ++ [t]) rest := by
  have h' : ¬ (TrimSpace text = "" ∨ HasPrefix (TrimSpace text) "#" = true) := by
    rw [skip_condition_iff, h]
    simp
  simp only [readTasksLoop]
  rw [if_neg h']
  unfold lineTask at ht
  split at ht
  · rename_i host database table condition count hs
    rw [hs]
    simp only [List.length_cons, List.length_nil, List.map_cons, List.map_nil]
    cases ha : Atoi (TrimSpace count) with
    | error e => rw [ha] at ht; simp at ht
    | ok v =>
      rw [ha] at ht
      simp only [Option.some.injEq] at ht
      subst ht
      simp [List.getD, ha]
  · simp at ht

theorem readTasksLoop_malformed (n : Nat) (tasks : List CheckTask) (text : String)
    (rest : List String) (h : isSkippedLine text = false) (ht : lineTask text = none) :
    ∃ e, readTasksLoop n tasks (text :: rest) = .error e ∧ citesLine e (n + 1) := by
  have h' : ¬ (TrimSpace text = "" ∨ HasPrefix (TrimSpace text) "#" = true) := by
    rw [skip_condition_iff, h]
    simp
  simp only [readTasksLoop]
  rw [if_neg h']
  by_cases hl : (Split (TrimSpace text) ',').length = 5
  · unfold lineTask at ht
    split at ht
    · rename_i host database table condition count hs
      rw [hs]
      simp only [List.length_cons, List.length_nil, List.map_cons, List.map_nil]
      cases ha : Atoi (TrimSpace count) with
      | ok v => rw [ha] at ht; simp at ht
      | error e =>
        refine ⟨.wrap ("第 " ++ toString (n + 1) ++ " 行预期行数格式错误: ") e, ?_, Or.inr ⟨e, rfl⟩⟩
        simp [List.getD, ha]
    · rename_i hne
      exfalso
      match hm : Split (TrimSpace text) ',', hl with
      | [a, b, c, d, e], _ => exact hne a b c d e hm
  · refine ⟨_, ?_, Or.inl ⟨(Split (TrimSpace text) ',').length, rfl⟩⟩
    simp [hl]

theorem readTasksLoop_ok (lines : List String) (n : Nat) (tasks : List CheckTask)
    (h : ∀ l ∈ lines, isSkippedLine l = false → (lineTask l).isSome = true) :
    readTasksLoop n tasks lines =
      .ok (tasks ++ (lines.filter (fun l => !isSkippedLine l)).filterMap lineTask) := by
  induction lines generalizing n tasks with
  | nil => simp [readTasksLoop]
  | cons text rest ih =>
    have hrest : ∀ l ∈ rest, isSkippedLine l = false → (lineTask l).isSome = true :=
      fun l hl => h l (List.mem_cons_of_mem _ hl)
    cases hs : isSkippedLine text with
    | true =>
      rw [readTasksLoop_skip n tasks text rest hs, ih (n + 1) tasks hrest]
      simp [List.filter_cons, hs]
    | false =>
      have hsome := h text (List.mem_cons_self _ _) hs
      obtain ⟨t, ht⟩ := Option.isSome_iff_exists.1 hsome
      rw [readTasksLoop_task n tasks text rest t hs ht, ih (n + 1) (tasks ++ [t]) hrest]
      simp [List.filter_cons, hs, List.filterMap_cons, ht]

theorem readTasksLoop_error (lines : List String) (n : Nat) (tasks : List CheckTask) (i : Nat)
    (hi : i < lines.length)
    (hbad : isSkippedLine (lines.get ⟨i, hi⟩) = false ∧ lineTask (lines.get ⟨i, hi⟩) = none)
    (hgood : ∀ j (hj : j < lines.length), j < i → isSkippedLine (lines.get ⟨j, hj⟩) = false →
      (lineTask (lines.get ⟨j, hj⟩)).isSome = true) :
    ∃ e, readTasksLoop n tasks lines = .error e ∧ citesLine e (n + i + 1) := by
  induction lines generalizing n tasks i with
  | nil => simp at hi
  | cons text rest ih =>
    cases i with
    | zero =>
      exact readTasksLoop_malformed n tasks text rest hbad.1 hbad.2
    | succ k =>
      have hk : k < rest.length := by simpa using hi
      have hgood' : ∀ j (hj : j < rest.length), j < k → isSkippedLine (rest.get ⟨j, hj⟩) = false →
          (lineTask (rest.get ⟨j, hj⟩)).isSome = true := by
        intro j hj hjk hsj
        exact hgood (j + 1) (by simpa using hj) (by omega) hsj
      have hbad' : isSkippedLine (rest.get ⟨k, hk⟩) = false ∧ lineTask (rest.get ⟨k, hk⟩) = none :=
        hbad
      have h0 := hgood 0 (by simp) (by omega)
      cases hs : isSkippedLine text with
      | true =>
        rw [readTasksLoop_skip n tasks text rest hs]
        obtain ⟨e, he, hc⟩ := ih (n + 1) tasks k hk hbad' hgood'
        refine ⟨e, he, ?_⟩
        have : n + (k + 1) + 1 = n + 1 + k + 1 := by omega
        rw [this]
        exact hc
      | false =>
        have hsome := h0 hs
        obtain ⟨t, ht⟩ := Option.isSome_iff_exists.1 hsome
        rw [readTasksLoop_task n tasks text rest t hs ht]
        obtain ⟨e, he, hc⟩ := ih (n + 1) (tasks ++ [t]) k hk hbad' hgood'
        refine ⟨e, he, ?_⟩
        have : n + (k + 1) + 1 = n + 1 + k + 1 := by omega
        rw [this]
        exact hc

/-! ## Fields of a task line -/

theorem trimChars_eq (s : List Char) :
    trimChars s = List.rdropWhile isSpace (s.dropWhile isSpace) := rfl

theorem dropWhile_append_sep (xs r : List Char) (c : Char) (hc : isSpace c = false) :
    (xs ++ c :: r).dropWhile isSpace = xs.dropWhile isSpace ++ c :: r := by
  induction xs with
  | nil => simp [List.dropWhile, hc]
  | cons x xs ih =>
    by_cases hx : isSpace x = true
    · simp [List.dropWhile, hx, ih]
    · simp [List.dropWhile, hx]

theorem rdropWhile_append_sep (xs r : List Char) (c : Char) (hc : isSpace c = false) :
    List.rdropWhile isSpace (xs ++ c :: r) = xs ++ c :: List.rdropWhile isSpace r := by
  unfold List.rdropWhile
  have : (xs ++ c :: r).reverse = r.reverse ++ c :: xs.reverse := by simp
  rw [this, dropWhile_append_sep _ _ _ hc]
  simp

theorem rdropWhile_cons (c : Char) (cs : List Char) :
    List.rdropWhile isSpace (c :: cs) =
      if List.rdropWhile isSpace cs = [] ∧ isSpace c = true then []
      else c :: List.rdropWhile isSpace cs := by
  unfold List.rdropWhile
  rw [List.reverse_cons, List.dropWhile_append]
  by_cases h : cs.reverse.dropWhile isSpace = []
  · by_cases hc : isSpace c = true
    · simp [h, hc, List.dropWhile]
    · simp [h, hc, List.dropWhile]
  · have h' : ((cs.reverse.dropWhile isSpace).isEmpty) = false := by
      cases hd : cs.reverse.dropWhile isSpace with
      | nil => exact absurd hd h
      | cons a as => rfl
    simp [h, h']

theorem dropWhile_rdropWhile_comm (l : List Char) :
    (List.rdropWhile isSpace l).dropWhile isSpace =
      List.rdropWhile isSpace (l.dropWhile isSpace) := by
  induction l with
  | nil => simp [List.rdropWhile]
  | cons c cs ih =>
    rw [rdropWhile_cons]
    by_cases hc : isSpace c = true
    · by_cases hr : List.rdropWhile isSpace cs = []
      · have hall : ∀ x ∈ cs, isSpace x = true := List.rdropWhile_eq_nil_iff.1 hr
        have hd : cs.dropWhile isSpace = [] := List.dropWhile_eq_nil_iff.2 hall
        rw [if_pos ⟨hr, hc⟩]
        have hcd : (c :: cs).dropWhile isSpace = [] := by simp [List.dropWhile, hc, hd]
        rw [hcd, List.rdropWhile_nil]
        rfl
      · simp [hr, hc, List.dropWhile, ih]
    · simp only [hc, and_false, if_false, Bool.false_eq_true]
      have hcf : isSpace c = false := by simpa using hc
      simp only [List.dropWhile, hcf]
      rw [rdropWhile_cons]
      simp [hcf]

theorem trimChars_dropWhile (s : List Char) : trimChars (s.dropWhile isSpace) = trimChars s := by
  rw [trimChars_eq, trimChars_eq, List.dropWhile_idempotent]

theorem trimChars_rdropWhile (s : List Char) :
    trimChars (List.rdropWhile isSpace s) = trimChars s := by
  rw [trimChars_eq, trimChars_eq, dropWhile_rdropWhile_comm, List.rdropWhile_idempotent]

theorem splitChars_no_sep (sep : Char) (f : List Char) (h : sep ∉ f) :
    splitChars sep f = [f] := by
  induction f with
  | nil => rfl
  | cons c cs ih =>
    have hc : c ≠ sep := fun e => h (by simp [e])
    have hcs : sep ∉ cs := fun e => h (List.mem_cons_of_mem _ e)
    simp [splitChars, hc, ih hcs]

theorem splitChars_field (sep : Char) (f rest : List Char) (h : sep ∉ f) :
    splitChars sep (f ++ sep :: rest) = f :: splitChars sep rest := by
  induction f with
  | nil => simp [splitChars]
  | cons c cs ih =>
    have hc : c ≠ sep := fun e => h (by simp [e])
    have hcs : sep ∉ cs := fun e => h (List.mem_cons_of_mem _ e)
    simp [splitChars, hc, ih hcs]

theorem not_mem_dropWhile (c : Char) (s : List Char) (h : c ∉ s) : c ∉ s.dropWhile isSpace :=
  fun hm => h ((List.dropWhile_suffix isSpace).subset hm)

theorem not_mem_rdropWhile (c : Char) (s : List Char) (h : c ∉ s) :
    c ∉ List.rdropWhile isSpace s :=
  fun hm => h ((List.rdropWhile_prefix isSpace s).subset hm)

theorem lineTask_of_fields (host database table condition count : String) (n : Int)
    (h0 : ',' ∉ host.data) (h1 : ',' ∉ database.data) (h2 : ',' ∉ table.data)
    (h3 : ',' ∉ condition.data) (h4 : ',' ∉ count.data)
    (hn : Atoi (TrimSpace count) = .ok n) :
    lineTask (host ++ "," ++ database ++ "," ++ table ++ "," ++ condition ++ "," ++ count) =
      some ⟨TrimSpace host, TrimSpace database, TrimSpace table, TrimSpace condition, n⟩ := by
  have hsp : isSpace ',' = false := by decide
  have hdata : (host ++ "," ++ database ++ "," ++ table ++ "," ++ condition ++ "," ++ count).data =
      host.data ++ ',' :: ((database.data ++ ',' :: (table.data ++ ',' :: condition.data)) ++
        ',' :: count.data) := by
    simp [String.data_append]
  have htrim : trimChars (host.data ++ ',' :: ((database.data ++ ',' ::
      (table.data ++ ',' :: condition.data)) ++ ',' :: count.data)) =
      host.data.dropWhile isSpace ++ ',' :: (database.data ++ ',' :: (table.data ++ ',' ::
        (condition.data ++ ',' :: List.rdropWhile isSpace count.data))) := by
    rw [trimChars_eq, dropWhile_append_sep _ _ _ hsp]
    have : host.data.dropWhile isSpace ++ ',' :: ((database.data ++ ',' ::
        (table.data ++ ',' :: condition.data)) ++ ',' :: count.data) =
        (host.data.dropWhile isSpace ++ ',' :: (database.data ++ ',' ::
        (table.data ++ ',' :: condition.data))) ++ ',' :: count.data := by simp
    rw [this, rdropWhile_append_sep _ _ _ hsp]
    simp
  have hsplit : Split (TrimSpace (host ++ "," ++ database ++ "," ++ table ++ "," ++ condition ++
      "," ++ count)) ',' =
      [⟨host.data.dropWhile isSpace⟩, database, table, condition,
        ⟨List.rdropWhile isSpace count.data⟩] := by
    unfold Split TrimSpace
    simp only [hdata, htrim]
    rw [splitChars_field _ _ _ (not_mem_dropWhile _ _ h0), splitChars_field _ _ _ h1,
      splitChars_field _ _ _ h2, splitChars_field _ _ _ h3,
      splitChars_no_sep _ _ (not_mem_rdropWhile _ _ h4)]
    rfl
  have ht0 : TrimSpace ⟨host.data.dropWhile isSpace⟩ = TrimSpace host :=
    String.ext (trimChars_dropWhile host.data)
  have ht4 : TrimSpace ⟨List.rdropWhile isSpace count.data⟩ = TrimSpace count :=
    String.ext (trimChars_rdropWhile count.data)
  unfold lineTask
  rw [hsplit]
  simp only [ht0, ht4, hn]

theorem isSkippedLine_of_blank_or_hash (text : String)
    (h : text = "" ∨ text.data.head? = some '#') : isSkippedLine text = true := by
  unfold isSkippedLine TrimSpace
  rcases h with rfl | h
  · decide
  · cases hd : text.data with
    | nil => rw [hd] at h; simp at h
    | cons c cs =>
      rw [hd] at h
      simp only [List.head?_cons, Option.some.injEq] at h
      subst h
      have hsp : isSpace '#' = false := by decide
      have h1 : trimChars ('#' :: cs) = '#' :: List.rdropWhile isSpace cs := by
        rw [trimChars_eq]
        simp only [List.dropWhile, hsp]
        rw [rdropWhile_cons]
        simp [hsp]
      simp [h1]

/-- C7: blank lines and lines starting with `#` are skipped (the test is made on the trimmed
line); when every remaining line has five comma-separated fields and an integer fifth field
the load returns one task per remaining line, in input order, made of the trimmed fields;
otherwise it fails with no tasks and an error citing the 1-based number, skipped lines
counted, of the first malformed line. -/
theorem readTasks_per_line (lines : List String) :
    (∀ l : String, (l = "" ∨ l.data.head? = some '#') → isSkippedLine l = true) ∧
    ((∀ l ∈ lines, isSkippedLine l = false → (lineTask l).isSome = true) →
      readTasksLoop 0 [] lines =
        .ok ((lines.filter (fun l => !isSkippedLine l)).filterMap lineTask) ∧
      ((lines.filter (fun l => !isSkippedLine l)).filterMap lineTask).length =
        (lines.filter (fun l => !isSkippedLine l)).length) ∧
    (∀ (i : Nat) (hi : i < lines.length),
      isSkippedLine (lines.get ⟨i, hi⟩) = false → lineTask (lines.get ⟨i, hi⟩) = none →
      (∀ j (hj : j < lines.length), j < i → isSkippedLine (lines.get ⟨j, hj⟩) = false →
        (lineTask (lines.get ⟨j, hj⟩)).isSome = true) →
      ∃ e, readTasksLoop 0 [] lines = .error e ∧ citesLine e (i + 1)) ∧
    (∀ host database table condition count : String, ∀ n : Int,
      ',' ∉ host.data → ',' ∉ database.data → ',' ∉ table.data → ',' ∉ condition.data →
      ',' ∉ count.data → Atoi (TrimSpace count) = .ok n →
      lineTask (host ++ "," ++ database ++ "," ++ table ++ "," ++ condition ++ "," ++ count) =
        some ⟨TrimSpace host, TrimSpace database, TrimSpace table, TrimSpace condition, n⟩) := by
  refine ⟨isSkippedLine_of_blank_or_hash, ?_, ?_, ?_⟩
  · intro h
    refine ⟨by simpa using readTasksLoop_ok lines 0 [] h, ?_⟩
    have : ∀ ls : List String, (∀ l ∈ ls, isSkippedLine l = false → (lineTask l).isSome = true) →
        ((ls.filter (fun l => !isSkippedLine l)).filterMap lineTask).length =
          (ls.filter (fun l => !isSkippedLine l)).length := by
      intro ls
      induction ls with
      | nil => simp
      | cons a as ih =>
        intro hl
        have ih' := ih (fun l hl' => hl l (List.mem_cons_of_mem _ hl'))
        cases hs : isSkippedLine a with
        | true => simpa [List.filter_cons, hs] using ih'
        | false =>
          obtain ⟨t, ht⟩ := Option.isSome_iff_exists.1 (hl a (List.mem_cons_self _ _) hs)
          simp [List.filter_cons, hs, List.filterMap_cons, ht, ih']
    exact this lines h
  · intro i hi hs hn hgood
    simpa using readTasksLoop_error lines 0 [] i hi ⟨hs, hn⟩ hgood
  · intro host database table condition count n h0 h1 h2 h3 h4 hn
    exact lineTask_of_fields host database table condition count n h0 h1 h2 h3 h4 hn

/-- Witness for C7: a comment, a blank line, a well-formed line; and the same followed by a
line with two fields, which is line 4. -/
theorem readTasks_per_line_witness :
    readTasksLoop 0 [] ["# c", "", " h , d , t , 2024 , 3 "] = .ok [⟨"h", "d", "t", "2024", 3⟩] ∧
    (∃ e, readTasksLoop 0 [] ["# c", "", " h , d , t , 2024 , 3 ", "a,b"] = .error e ∧
      citesLine e 4) :=
  ⟨((readTasks_per_line ["# c", "", " h , d , t , 2024 , 3 "]).2.1 (by decide)).1.trans (by decide),
   (readTasks_per_line ["# c", "", " h , d , t , 2024 , 3 ", "a,b"]).2.2.1 3 (by decide)
     (by decide) (by decide) (by decide)⟩

/-! ## The connection cache -/

theorem ConnectTargetDB_hit (w : World) (s : State) (host database username password : String)
    (db : DB) (h : s.dm.targetDBs.lookup (host ++ "-" ++ database) = some db) :
    ConnectTargetDB w s host database username password = (.ok db, s) := by
  simp [ConnectTargetDB, h]

theorem lookup_mapInsert_self (m : List (String × DB)) (key : String) (db : DB) :
    (mapInsert m key db).lookup key = some db := by
  simp [mapInsert, List.lookup]

theorem ConnectTargetDB_ok_cached (w : World) (s s1 : State)
    (host database username password : String) (db : DB)
    (h : ConnectTargetDB w s host database username password = (.ok db, s1)) :
    s1.dm.targetDBs.lookup (host ++ "-" ++ database) = some db := by
  unfold ConnectTargetDB at h
  cases hl : s.dm.targetDBs.lookup (host ++ "-" ++ database) with
  | some db0 =>
    simp only [hl] at h
    obtain ⟨h1, h2⟩ := Prod.mk.inj h
    rw [← h2, hl]
    exact congrArg some (Except.ok.inj h1)
  | none =>
    simp only [hl] at h
    split at h
    · simp at h
    · split at h
      · simp at h
      · obtain ⟨h1, h2⟩ := Prod.mk.inj h
        rw [← h2, ← Except.ok.inj h1]
        exact lookup_mapInsert_self _ _ _

/-! ## What each operation appends to the log -/

theorem emit_log (s : State) (e : Event) : (s.emit e).log = s.log ++ [e] := rfl

theorem emit_dm (s : State) (e : Event) : (s.emit e).dm = s.dm := rfl

theorem writeString_log (w : World) (s : State) (path text : String) :
    (writeString w s path text).log =
      s.log ++ [.writeString path text (w.writeString s.log path text)] := rfl

theorem writeString_dm (w : World) (s : State) (path text : String) :
    (writeString w s path text).dm = s.dm := rfl

theorem ConnectTargetDB_log (w : World) (s : State) (host database username password : String) :
    ∃ evs, (ConnectTargetDB w s host database username password).2.log = s.log ++ evs ∧
      (∀ e ∈ evs, e.isPlain = true) ∧
      (ConnectTargetDB w s host database username password).2.dm.config = s.dm.config := by
  unfold ConnectTargetDB
  cases hl : s.dm.targetDBs.lookup (host ++ "-" ++ database) with
  | some db =>
    simp only [hl]
    exact ⟨[], by simp, by simp, trivial⟩
  | none =>
    simp only [hl]
    split
    · exact ⟨[_], rfl, by simp [Event.isPlain], rfl⟩
    · split
      · exact ⟨[.sqlOpen _, .ping _], List.append_assoc _ _ _, by simp [Event.isPlain], rfl⟩
      · exact ⟨[.sqlOpen _, .ping _], List.append_assoc _ _ _, by simp [Event.isPlain], rfl⟩

theorem GetColumnDataType_log (w : World) (s : State) (db : DB) (database table column : String) :
    ∃ evs, (GetColumnDataType w s db database table column).2.log = s.log ++ evs ∧
      (∀ e ∈ evs, e.isPlain = true) ∧
      (GetColumnDataType w s db database table column).2.dm = s.dm := by
  unfold GetColumnDataType
  simp only
  split
  · exact ⟨[_], rfl, by simp [Event.isPlain], rfl⟩
  · exact ⟨[_], rfl, by simp [Event.isPlain], rfl⟩

theorem backupRows_log (w : World) (path table : String) (columns : List String)
    (rows : List (Except GoError (List Value))) (n : Nat) (s : State) :
    ∃ evs, (backupRows w path table columns rows n s).2.log = s.log ++ evs ∧
      (∀ e ∈ evs, e.isPlain = true) ∧
      (backupRows w path table columns rows n s).2.dm = s.dm := by
  induction rows generalizing n s with
  | nil => exact ⟨[], by simp [backupRows], by simp, rfl⟩
  | cons r rest ih =>
    cases r with
    | error err => exact ⟨[], by simp [backupRows], by simp, rfl⟩
    | ok values =>
      simp only [backupRows]
      obtain ⟨evs, h1, h2, h3⟩ := ih (n + 1) (writeString w s path
        ("INSERT INTO " ++ table ++ " (" ++ Join columns ", " ++ ") VALUES (" ++
          Join (values.map renderValue) ", " ++ ");\n"))
      refine ⟨.writeString path ("INSERT INTO " ++ table ++ " (" ++ Join columns ", " ++
          ") VALUES (" ++ Join (values.map renderValue) ", " ++ ");\n")
          (w.writeString s.log path ("INSERT INTO " ++ table ++ " (" ++ Join columns ", " ++
          ") VALUES (" ++ Join (values.map renderValue) ", " ++ ");\n")) :: evs, ?_, ?_, ?_⟩
      · rw [h1, writeString_log]
        simp
      · intro e he
        rcases List.mem_cons.1 he with rfl | he
        · rfl
        · exact h2 e he
      · rw [h3, writeString_dm]

theorem PlainExt.refl (s : State) : PlainExt s s := ⟨[], by simp, by simp, rfl⟩

theorem PlainExt.emit {s s' : State} (h : PlainExt s s') (e : Event) (he : e.isPlain = true) :
    PlainExt s (s'.emit e) := by
  obtain ⟨evs, h1, h2, h3⟩ := h
  refine ⟨evs ++ [e], ?_, ?_, ?_⟩
  · rw [emit_log, h1, List.append_assoc]
  · intro x hx
    rcases List.mem_append.1 hx with hx | hx
    · exact h2 x hx
    · rw [List.mem_singleton.1 hx]
      exact he
  · rw [emit_dm, h3]

theorem PlainExt.write {s s' : State} (h : PlainExt s s') (w : World) (path text : String) :
    PlainExt s (writeString w s' path text) :=
  h.emit _ rfl

theorem PlainExt.rows {s s' : State} (h : PlainExt s s') (w : World) (path table : String)
    (columns : List String) (rows : List (Except GoError (List Value))) (n : Nat) :
    PlainExt s (backupRows w path table columns rows n s').2 := by
  obtain ⟨evs, h1, h2, h3⟩ := h
  obtain ⟨evs', k1, k2, k3⟩ := backupRows_log w path table columns rows n s'
  refine ⟨evs ++ evs', ?_, ?_, ?_⟩
  · rw [k1, h1, List.append_assoc]
  · intro x hx
    rcases List.mem_append.1 hx with hx | hx
    · exact h2 x hx
    · exact k2 x hx
  · rw [k3, h3]

theorem backupBody_plain (w : World) (s : State) (db : DB) (task : CheckTask)
    (archiveColumn dataType : String) :
    PlainExt s (backupBody w s db task archiveColumn dataType).2 := by
  unfold backupBody
  simp only
  split
  · dsimp only
    repeat (first | exact PlainExt.refl _ | refine PlainExt.emit ?_ _ (by rfl))
  · split
    · dsimp only
      repeat (first | exact PlainExt.refl _ | refine PlainExt.emit ?_ _ (by rfl))
    · split
      · dsimp only
        repeat (first | exact PlainExt.refl _ | refine PlainExt.emit ?_ _ (by rfl))
      · split
        · dsimp only
          repeat (first | exact PlainExt.refl _ | refine PlainExt.emit ?_ _ (by rfl))
        · split
          · rename_i s9 heq
            have e9 := congrArg Prod.snd heq
            simp only at e9
            dsimp only
            refine PlainExt.emit (PlainExt.emit ?_ _ ?_) _ ?_
            · rw [← e9]
              apply PlainExt.rows
              repeat (first | exact PlainExt.refl _ |
                refine PlainExt.emit ?_ _ (by rfl))
            · rfl
            · rfl
          · rename_i s9 heq
            have e9 := congrArg Prod.snd heq
            simp only at e9
            dsimp only
            refine PlainExt.emit (PlainExt.emit (PlainExt.emit ?_ _ ?_) _ ?_) _ ?_
            · rw [← e9]
              apply PlainExt.rows
              repeat (first | exact PlainExt.refl _ |
                refine PlainExt.emit ?_ _ (by rfl))
            · rfl
            · rfl
            · rfl

theorem BackupDataToFile_log (w : World) (s : State) (db : DB) (task : CheckTask)
    (archiveColumn dataType : String) :
    ∃ evs ok, (BackupDataToFile w s db task archiveColumn dataType).2.log =
        s.log ++ .enter (.BackupDataToFile db task archiveColumn dataType) :: evs ++
          [.leave (.BackupDataToFile db task archiveColumn dataType) ok] ∧
      (∀ e ∈ evs, e.isPlain = true) ∧
      (ok = true ↔ ∃ path, (BackupDataToFile w s db task archiveColumn dataType).1 = .ok path) ∧
      (BackupDataToFile w s db task archiveColumn dataType).2.dm = s.dm := by
  obtain ⟨evs, h1, h2, h3⟩ := backupBody_plain w
    (s.emit (.enter (.BackupDataToFile db task archiveColumn dataType))) db task archiveColumn
    dataType
  unfold BackupDataToFile
  simp only
  split
  · rename_i err s1 heq
    rw [heq] at h1 h3
    refine ⟨evs, false, ?_, h2, by simp, ?_⟩
    · rw [emit_log, h1, emit_log]
      simp
    · rw [emit_dm, h3, emit_dm]
  · rename_i path s1 heq
    rw [heq] at h1 h3
    refine ⟨evs, true, ?_, h2, by simp, ?_⟩
    · rw [emit_log, h1, emit_log]
      simp
    · rw [emit_dm, h3, emit_dm]

theorem deleteBody_log (w : World) (s : State) (db : DB) (task : CheckTask)
    (archiveColumn dataType : String) :
    ∃ evs, (deleteBody w s db task archiveColumn dataType).2.log = s.log ++ evs ∧
      (∀ e ∈ evs, ∃ stmt args, e = .exec db stmt args) ∧
      (deleteBody w s db task archiveColumn dataType).2.dm = s.dm := by
  unfold deleteBody
  split
  · exact ⟨[], by simp, by simp, rfl⟩
  · simp only
    split
    · exact ⟨[_], rfl, by simp, rfl⟩
    · exact ⟨[_], rfl, by simp, rfl⟩
    · exact ⟨[_], rfl, by simp, rfl⟩

theorem DeleteDataByCondition_log (w : World) (s : State) (db : DB) (task : CheckTask)
    (archiveColumn dataType : String) :
    ∃ evs ok, (DeleteDataByCondition w s db task archiveColumn dataType).2.log =
        s.log ++ .enter (.DeleteDataByCondition db task archiveColumn dataType) :: evs ++
          [.leave (.DeleteDataByCondition db task archiveColumn dataType) ok] ∧
      (∀ e ∈ evs, ∃ stmt args, e = .exec db stmt args) ∧
      (DeleteDataByCondition w s db task archiveColumn dataType).2.dm = s.dm := by
  obtain ⟨evs, h1, h2, h3⟩ := deleteBody_log w
    (s.emit (.enter (.DeleteDataByCondition db task archiveColumn dataType))) db task
    archiveColumn dataType
  unfold DeleteDataByCondition
  simp only
  split
  · rename_i err s1 heq
    rw [heq] at h1 h3
    refine ⟨evs, false, ?_, h2, ?_⟩
    · rw [emit_log, h1, emit_log]
      simp
    · rw [emit_dm, h3, emit_dm]
  · rename_i n s1 heq
    rw [heq] at h1 h3
    refine ⟨evs, true, ?_, h2, ?_⟩
    · rw [emit_log, h1, emit_log]
      simp
    · rw [emit_dm, h3, emit_dm]

/-! ## Deletion safety -/

theorem isDeletion_of_isPlain (e : Event) (h : e.isPlain = true) : e.isDeletion = false := by
  cases e <;> simp_all [Event.isPlain, Event.isDeletion, Event.isExec, Event.isEnterDelete]

theorem split_after (P : Event → Bool) {l1 l2 pre post : List Event} {x : Event}
    (h1 : ∀ e ∈ l1, P e = false) (hx : P x = true)
    (h : l1 ++ l2 = pre ++ x :: post) :
    ∃ pre', pre = l1 ++ pre' ∧ l2 = pre' ++ x :: post := by
  induction l1 generalizing pre with
  | nil => exact ⟨pre, rfl, h⟩
  | cons a l ih =>
    cases pre with
    | nil =>
      simp only [List.cons_append, List.nil_append, List.cons.injEq] at h
      have := h1 a (List.mem_cons_self _ _)
      rw [h.1, hx] at this
      exact absurd this (by simp)
    | cons b pre0 =>
      simp only [List.cons_append, List.cons.injEq] at h
      obtain ⟨pre', hp, hl⟩ := ih (fun e he => h1 e (List.mem_cons_of_mem _ he)) h.2
      exact ⟨pre', by rw [h.1, hp]; rfl, hl⟩

/-- The shape of the events of one `performDeletion`: either no event belongs to a deletion
and an error is returned, or the events are some events that belong to no deletion, the
successful return of the backup, the invocation of the deletion, its `Exec` events and its
return. -/
theorem performDeletion_trace (w : World) (s : State) (result : CheckResult) :
    ∃ evs, (performDeletion w s result).2.log = s.log ++ evs ∧
      (((∀ e ∈ evs, e.isDeletion = false) ∧ ∃ err, (performDeletion w s result).1 = some err) ∨
       ∃ (pre : List Event) (db : DB) (ty : String) (del : List Event) (ok : Bool),
         evs = pre ++ .leave (.BackupDataToFile db result.Task result.ArchiveColumn ty) true ::
           .enter (.DeleteDataByCondition db result.Task result.ArchiveColumn ty) :: del ++
           [.leave (.DeleteDataByCondition db result.Task result.ArchiveColumn ty) ok] ∧
         (∀ e ∈ pre, e.isDeletion = false) ∧
         (∀ e ∈ del, ∃ stmt args, e = .exec db stmt args) ∧
         ∃ (s1 s2 s3 : State) (path : String),
           ConnectTargetDB w s result.Task.TargetDBHost result.Task.DatabaseName
             s.dm.config.TargetDBDefaults.Username s.dm.config.TargetDBDefaults.Password =
             (.ok db, s1) ∧
           GetColumnDataType w s1 db result.Task.DatabaseName result.Task.TableName
             result.ArchiveColumn = (.ok ty, s2) ∧
           BackupDataToFile w s2 db result.Task result.ArchiveColumn ty = (.ok path, s3)) := by
  unfold performDeletion
  obtain ⟨A, hA, hAp, -⟩ := ConnectTargetDB_log w s result.Task.TargetDBHost
    result.Task.DatabaseName s.dm.config.TargetDBDefaults.Username
    s.dm.config.TargetDBDefaults.Password
  split
  · rename_i err s1 hc
    rw [hc] at hA
    exact ⟨A, hA, Or.inl ⟨fun e he => isDeletion_of_isPlain e (hAp e he), _, rfl⟩⟩
  · rename_i targetDB s1 hc
    rw [hc] at hA
    simp only at hA
    obtain ⟨B, hB, hBp, -⟩ := GetColumnDataType_log w s1 targetDB result.Task.DatabaseName
      result.Task.TableName result.ArchiveColumn
    split
    · rename_i err s2 hg
      rw [hg] at hB
      refine ⟨A ++ B, ?_, Or.inl ⟨?_, _, rfl⟩⟩
      · simp only at hB ⊢
        rw [hB, hA, List.append_assoc]
      · intro e he
        rcases List.mem_append.1 he with he | he
        · exact isDeletion_of_isPlain e (hAp e he)
        · exact isDeletion_of_isPlain e (hBp e he)
    · rename_i dataType s2 hg
      rw [hg] at hB
      simp only at hB
      obtain ⟨C, okB, hC, hCp, hok, -⟩ := BackupDataToFile_log w s2 targetDB result.Task
        result.ArchiveColumn dataType
      have hpre : ∀ e ∈ A ++ B ++ .enter (.BackupDataToFile targetDB result.Task
          result.ArchiveColumn dataType) :: C, e.isDeletion = false := by
        intro e he
        rcases List.mem_append.1 he with he | he
        · rcases List.mem_append.1 he with he | he
          · exact isDeletion_of_isPlain e (hAp e he)
          · exact isDeletion_of_isPlain e (hBp e he)
        · rcases List.mem_cons.1 he with rfl | he
          · rfl
          · exact isDeletion_of_isPlain e (hCp e he)
      split
      · rename_i err s3 hb
        rw [hb] at hC
        refine ⟨A ++ B ++ .enter (.BackupDataToFile targetDB result.Task
          result.ArchiveColumn dataType) :: C ++ [.leave (.BackupDataToFile targetDB result.Task
          result.ArchiveColumn dataType) okB], ?_, Or.inl ⟨?_, _, rfl⟩⟩
        · simp only at hC ⊢
          rw [hC, hB, hA]
          simp
        · intro e he
          rcases List.mem_append.1 he with he | he
          · exact hpre e he
          · rw [List.mem_singleton.1 he]
            rfl
      · rename_i path s3 hb
        rw [hb] at hC hok
        simp only at hC
        have hokB : okB = true := hok.2 ⟨path, rfl⟩
        subst hokB
        obtain ⟨D, okD, hD, hDp, -⟩ := DeleteDataByCondition_log w s3 targetDB result.Task
          result.ArchiveColumn dataType
        have hlog : ∀ s4 : State, s4.log = s3.log ++
            .enter (.DeleteDataByCondition targetDB result.Task result.ArchiveColumn dataType) ::
              D ++ [.leave (.DeleteDataByCondition targetDB result.Task result.ArchiveColumn
                dataType) okD] →
            s4.log = s.log ++ ((A ++ B ++ .enter (.BackupDataToFile targetDB result.Task
              result.ArchiveColumn dataType) :: C) ++
              .leave (.BackupDataToFile targetDB result.Task result.ArchiveColumn dataType) true ::
              .enter (.DeleteDataByCondition targetDB result.Task result.ArchiveColumn dataType) ::
              D ++ [.leave (.DeleteDataByCondition targetDB result.Task result.ArchiveColumn
                dataType) okD]) := by
          intro s4 h4
          rw [h4, hC, hB, hA]
          simp
        split
        · rename_i err s4 hd
          rw [hd] at hD
          exact ⟨_, hlog s4 hD, Or.inr ⟨_, targetDB, dataType, D, okD, rfl, hpre, hDp,
            s1, s2, s3, path, hc, hg, hb⟩⟩
        · rename_i n s4 hd
          rw [hd] at hD
          exact ⟨_, hlog s4 hD, Or.inr ⟨_, targetDB, dataType, D, okD, rfl, hpre, hDp,
            s1, s2, s3, path, hc, hg, hb⟩⟩

/-- C1: in every run of `performDeletion`, the invocation of `DeleteDataByCondition`, and
every `Exec` statement, come after the successful return of `BackupDataToFile` for the same
connection, task, archive column and data type; and when connecting, reading the column type
or the backup fails, an error is returned and the run has no `Exec` and no invocation of the
deletion. -/
theorem performDeletion_backup_first (w : World) (s : State) (result : CheckResult) :
    ∃ evs, (performDeletion w s result).2.log = s.log ++ evs ∧
      (∀ pre post db task col ty,
        evs = pre ++ .enter (.DeleteDataByCondition db task col ty) :: post →
        task = result.Task ∧ col = result.ArchiveColumn ∧
        .leave (.BackupDataToFile db task col ty) true ∈ pre) ∧
      (∀ pre post db stmt args, evs = pre ++ .exec db stmt args :: post →
        ∃ ty, .leave (.BackupDataToFile db result.Task result.ArchiveColumn ty) true ∈ pre ∧
          .enter (.DeleteDataByCondition db result.Task result.ArchiveColumn ty) ∈ pre) ∧
      (∀ err s1,
        ConnectTargetDB w s result.Task.TargetDBHost result.Task.DatabaseName
          s.dm.config.TargetDBDefaults.Username s.dm.config.TargetDBDefaults.Password =
          (.error err, s1) →
        (performDeletion w s result).1 = some (.wrap "连接目标数据库失败: " err) ∧
        ∀ e ∈ evs, e.isDeletion = false) ∧
      (∀ db s1 err s2,
        ConnectTargetDB w s result.Task.TargetDBHost result.Task.DatabaseName
          s.dm.config.TargetDBDefaults.Username s.dm.config.TargetDBDefaults.Password =
          (.ok db, s1) →
        GetColumnDataType w s1 db result.Task.DatabaseName result.Task.TableName
          result.ArchiveColumn = (.error err, s2) →
        (performDeletion w s result).1 = some (.wrap "获取列数据类型失败: " err) ∧
        ∀ e ∈ evs, e.isDeletion = false) ∧
      (∀ db s1 ty s2 err s3,
        ConnectTargetDB w s result.Task.TargetDBHost result.Task.DatabaseName
          s.dm.config.TargetDBDefaults.Username s.dm.config.TargetDBDefaults.Password =
          (.ok db, s1) →
        GetColumnDataType w s1 db result.Task.DatabaseName result.Task.TableName
          result.ArchiveColumn = (.ok ty, s2) →
        BackupDataToFile w s2 db result.Task result.ArchiveColumn ty = (.error err, s3) →
        (performDeletion w s result).1 = some (.wrap "备份数据失败: " err) ∧
        ∀ e ∈ evs, e.isDeletion = false) := by
  obtain ⟨evs, hlog, hshape⟩ := performDeletion_trace w s result
  refine ⟨evs, hlog, ?_, ?_, ?_, ?_, ?_⟩
  · intro pre post db task col ty hsplit
    rcases hshape with ⟨hno, -⟩ | ⟨p, db0, ty0, del, ok, hev, hp, hdel, -⟩
    · have := hno (.enter (.DeleteDataByCondition db task col ty)) (by rw [hsplit]; simp)
      simp [Event.isDeletion, Event.isEnterDelete] at this
    · have hev' : (p ++ [.leave (.BackupDataToFile db0 result.Task result.ArchiveColumn ty0) true])
          ++ (.enter (.DeleteDataByCondition db0 result.Task result.ArchiveColumn ty0) :: del ++
            [.leave (.DeleteDataByCondition db0 result.Task result.ArchiveColumn ty0) ok]) =
          pre ++ .enter (.DeleteDataByCondition db task col ty) :: post := by
        rw [← hsplit, hev]
        simp
      have hp' : ∀ e ∈ p ++ [.leave (.BackupDataToFile db0 result.Task result.ArchiveColumn ty0)
          true], e.isDeletion = false := by
        intro e he
        rcases List.mem_append.1 he with he | he
        · exact hp e he
        · rw [List.mem_singleton.1 he]
          rfl
      obtain ⟨pre', hpre, hrest⟩ := split_after Event.isDeletion hp' (by rfl) hev'
      cases pre' with
      | nil =>
        simp only [List.nil_append, List.cons_append, List.cons.injEq, Event.enter.injEq,
          Call.DeleteDataByCondition.injEq] at hrest
        obtain ⟨⟨rfl, rfl, rfl, rfl⟩, -⟩ := hrest
        refine ⟨rfl, rfl, ?_⟩
        rw [hpre]
        simp
      | cons a rest =>
        exfalso
        simp only [List.cons_append, List.cons.injEq] at hrest
        have hmem : Event.enter (.DeleteDataByCondition db task col ty) ∈
            del ++ [.leave (.DeleteDataByCondition db0 result.Task result.ArchiveColumn ty0) ok] := by
          rw [hrest.2]
          simp
        rcases List.mem_append.1 hmem with hm | hm
        · obtain ⟨stmt, args, h⟩ := hdel _ hm
          simp at h
        · simp at hm
  · intro pre post db stmt args hsplit
    rcases hshape with ⟨hno, -⟩ | ⟨p, db0, ty0, del, ok, hev, hp, hdel, -⟩
    · have := hno (.exec db stmt args) (by rw [hsplit]; simp)
      simp [Event.isDeletion, Event.isExec] at this
    · have hev' : (p ++ [.leave (.BackupDataToFile db0 result.Task result.ArchiveColumn ty0) true,
          .enter (.DeleteDataByCondition db0 result.Task result.ArchiveColumn ty0)])
          ++ (del ++
            [.leave (.DeleteDataByCondition db0 result.Task result.ArchiveColumn ty0) ok]) =
          pre ++ .exec db stmt args :: post := by
        rw [← hsplit, hev]
        simp
      have hp' : ∀ e ∈ p ++ [.leave (.BackupDataToFile db0 result.Task result.ArchiveColumn ty0)
          true, .enter (.DeleteDataByCondition db0 result.Task result.ArchiveColumn ty0)],
          e.isExec = false := by
        intro e he
        rcases List.mem_append.1 he with he | he
        · have := hp e he
          simp only [Event.isDeletion, Bool.or_eq_false_iff] at this
          exact this.1
        · simp only [List.mem_cons, List.mem_singleton, List.not_mem_nil, or_false] at he
          rcases he with rfl | rfl <;> rfl
      obtain ⟨pre', hpre, hrest⟩ := split_after Event.isExec hp' (by rfl) hev'
      have hmem : Event.exec db stmt args ∈
          del ++ [.leave (.DeleteDataByCondition db0 result.Task result.ArchiveColumn ty0) ok] := by
        rw [hrest]
        simp
      have hdb : db = db0 := by
        rcases List.mem_append.1 hmem with hm | hm
        · obtain ⟨stmt', args', h⟩ := hdel _ hm
          simp only [Event.exec.injEq] at h
          exact h.1
        · simp at hm
      subst hdb
      refine ⟨ty0, ?_, ?_⟩ <;> (rw [hpre]; simp)
  · intro err s1 hc
    refine ⟨by simp [performDeletion, hc], ?_⟩
    rcases hshape with ⟨hno, -⟩ | ⟨_, _, _, _, _, _, _, _, _, _, _, _, hc', _, _⟩
    · exact hno
    · rw [hc] at hc'
      simp at hc'
  · intro db s1 err s2 hc hg
    refine ⟨by simp [performDeletion, hc, hg], ?_⟩
    rcases hshape with ⟨hno, -⟩ | ⟨_, _, _, _, _, _, _, _, _, _, _, _, hc', hg', _⟩
    · exact hno
    · rw [hc] at hc'
      obtain ⟨h1, h2⟩ := Prod.mk.inj hc'
      cases h1
      subst h2
      rw [hg] at hg'
      simp at hg'
  · intro db s1 ty s2 err s3 hc hg hb
    refine ⟨by simp [performDeletion, hc, hg, hb], ?_⟩
    rcases hshape with ⟨hno, -⟩ | ⟨_, _, _, _, _, _, _, _, _, _, _, _, hc', hg', hb'⟩
    · exact hno
    · rw [hc] at hc'
      obtain ⟨h1, h2⟩ := Prod.mk.inj hc'
      cases h1
      subst h2
      rw [hg] at hg'
      obtain ⟨h3, h4⟩ := Prod.mk.inj hg'
      cases h3
      subst h4
      rw [hb] at hb'
      simp at hb'

/-- Witness for C1: a run in which every request succeeds; the deletion is invoked after the
backup has returned successfully. -/
theorem performDeletion_backup_first_witness :
    ∃ pre post,
      (performDeletion (World.answering "varchar" ⟨.ok ["id"], [.ok [.str "a"]], none⟩ none)
        (State.initial exampleConfig)
        ⟨⟨"h", "shop", "orders", "2024", 5⟩, 3, 5, "created_at", false⟩).2.log =
        pre ++ .enter (.DeleteDataByCondition ⟨0, "u:p@tcp(h)/shop?parseTime=true"⟩
          ⟨"h", "shop", "orders", "2024", 5⟩ "created_at" "varchar") :: post ∧
      Event.leave (.BackupDataToFile ⟨0, "u:p@tcp(h)/shop?parseTime=true"⟩
          ⟨"h", "shop", "orders", "2024", 5⟩ "created_at" "varchar") true ∈ pre := by
  obtain ⟨evs, hlog, h1, -⟩ := performDeletion_backup_first
    (World.answering "varchar" ⟨.ok ["id"], [.ok [.str "a"]], none⟩ none)
    (State.initial exampleConfig) ⟨⟨"h", "shop", "orders", "2024", 5⟩, 3, 5, "created_at", false⟩
  have hsplit : (performDeletion (World.answering "varchar" ⟨.ok ["id"], [.ok [.str "a"]], none⟩ none)
        (State.initial exampleConfig)
        ⟨⟨"h", "shop", "orders", "2024", 5⟩, 3, 5, "created_at", false⟩).2.log =
      ((performDeletion (World.answering "varchar" ⟨.ok ["id"], [.ok [.str "a"]], none⟩ none)
        (State.initial exampleConfig)
        ⟨⟨"h", "shop", "orders", "2024", 5⟩, 3, 5, "created_at", false⟩).2.log.take 17) ++
      .enter (.DeleteDataByCondition ⟨0, "u:p@tcp(h)/shop?parseTime=true"⟩
          ⟨"h", "shop", "orders", "2024", 5⟩ "created_at" "varchar") ::
      ((performDeletion (World.answering "varchar" ⟨.ok ["id"], [.ok [.str "a"]], none⟩ none)
        (State.initial exampleConfig)
        ⟨⟨"h", "shop", "orders", "2024", 5⟩, 3, 5, "created_at", false⟩).2.log.drop 18) := by
    decide
  refine ⟨_, _, hsplit, ?_⟩
  have hevs : evs = (performDeletion
      (World.answering "varchar" ⟨.ok ["id"], [.ok [.str "a"]], none⟩ none)
      (State.initial exampleConfig)
      ⟨⟨"h", "shop", "orders", "2024", 5⟩, 3, 5, "created_at", false⟩).2.log := by
    rw [hlog]
    rfl
  exact (h1 _ _ _ _ _ _ (hevs.trans hsplit)).2.2

/-! ## Unsupported column types -/

theorem classifyType_unsupported (lower : Char → Char) (ty : String)
    (h : classifyType lower ty = .Unsupported) :
    isStringType lower ty = false ∧ isDateTimeType lower ty = false := by
  unfold classifyType at h
  by_cases hs : isStringType lower ty = true
  · simp [hs] at h
  · by_cases hd : isDateTimeType lower ty = true
    · simp [hs, hd] at h
    · simp only [Bool.not_eq_true] at hs hd
      exact ⟨hs, hd⟩

/-- C3, the behaviour of the code for a type that is neither string-like nor date-like:
`CountRowsByCondition` and `DeleteDataByCondition` return the unsupported-type error and log
no query, and `processTask` fails right after reading the type; `BackupDataToFile` has no
such branch: its `WHERE` clause is empty, and for type `bigint` it runs
`SELECT * FROM orders ` and returns the path of the backup file. -/
theorem unsupported_type_behaviour :
    (∀ (w : World) (s : State) (db : DB) (table column condition ty : String),
      classifyType w.lower ty = .Unsupported →
      CountRowsByCondition w s db table column condition ty =
        (.error (.msg ("不支持的数据类型: " ++ ty)), s)) ∧
    (∀ (w : World) (s : State) (db : DB) (task : CheckTask) (column ty : String),
      classifyType w.lower ty = .Unsupported →
      (DeleteDataByCondition w s db task column ty).1 =
        .error (.msg ("不支持的数据类型: " ++ ty)) ∧
      (DeleteDataByCondition w s db task column ty).2.log =
        s.log ++ [.enter (.DeleteDataByCondition db task column ty),
          .leave (.DeleteDataByCondition db task column ty) false]) ∧
    (∀ (w : World) (s s1 s2 s3 : State) (task : CheckTask) (column ty : String) (db : DB),
      GetArchiveColumnName w s task.DatabaseName task.TableName = (.ok column, s1) →
      ConnectTargetDB w s1 task.TargetDBHost task.DatabaseName
        s1.dm.config.TargetDBDefaults.Username s1.dm.config.TargetDBDefaults.Password =
        (.ok db, s2) →
      GetColumnDataType w s2 db task.DatabaseName task.TableName column = (.ok ty, s3) →
      classifyType w.lower ty = .Unsupported →
      processTask w s task =
        (.error (.wrap "统计行数失败: " (.msg ("不支持的数据类型: " ++ ty))), s3)) ∧
    (∀ (lower : Char → Char) (column condition ty : String),
      classifyType lower ty = .Unsupported → backupWhereClause lower column condition ty = "") ∧
    (classifyType Char.toLower "bigint" = .Unsupported ∧
      (BackupDataToFile (World.answering "bigint" ⟨.ok ["id"], [.ok [.other "7"]], none⟩ none)
        (State.initial exampleConfig) ⟨0, "u:p@tcp(h)/shop?parseTime=true"⟩
        ⟨"h", "shop", "orders", "7", 5⟩ "id" "bigint").1 =
        .ok "bk/backup_shop_orders_20240115_090507.sql" ∧
      Event.query ⟨0, "u:p@tcp(h)/shop?parseTime=true"⟩ "SELECT * FROM orders " ∈
        (BackupDataToFile (World.answering "bigint" ⟨.ok ["id"], [.ok [.other "7"]], none⟩ none)
          (State.initial exampleConfig) ⟨0, "u:p@tcp(h)/shop?parseTime=true"⟩
          ⟨"h", "shop", "orders", "7", 5⟩ "id" "bigint").2.log ∧
      Event.writeString "bk/backup_shop_orders_20240115_090507.sql"
          "INSERT INTO orders (id) VALUES (7);\n" none ∈
        (BackupDataToFile (World.answering "bigint" ⟨.ok ["id"], [.ok [.other "7"]], none⟩ none)
          (State.initial exampleConfig) ⟨0, "u:p@tcp(h)/shop?parseTime=true"⟩
          ⟨"h", "shop", "orders", "7", 5⟩ "id" "bigint").2.log) := by
  refine ⟨?_, ?_, ?_, ?_, by decide⟩
  · intro w s db table column condition ty h
    obtain ⟨hs, hd⟩ := classifyType_unsupported _ _ h
    simp [CountRowsByCondition, countQuery, hs, hd]
  · intro w s db task column ty h
    obtain ⟨hs, hd⟩ := classifyType_unsupported _ _ h
    simp [DeleteDataByCondition, deleteBody, deleteWhereClause, hs, hd, emit_log]
  · intro w s s1 s2 s3 task column ty db ha hc hg h
    obtain ⟨hs, hd⟩ := classifyType_unsupported _ _ h
    simp [processTask, ha, hc, hg, CountRowsByCondition, countQuery, hs, hd]
  · intro lower column condition ty h
    obtain ⟨hs, hd⟩ := classifyType_unsupported _ _ h
    simp [backupWhereClause, hs, hd]

/-- Witness for C3 at the type `bigint`. -/
theorem unsupported_type_behaviour_witness :
    CountRowsByCondition (World.answering "bigint" ⟨.ok ["id"], [], none⟩ none)
        (State.initial exampleConfig) ⟨0, "d"⟩ "orders" "id" "7" "bigint" =
      (.error (.msg ("不支持的数据类型: " ++ "bigint")), State.initial exampleConfig) ∧
    backupWhereClause Char.toLower "id" "7" "bigint" = "" :=
  ⟨unsupported_type_behaviour.1 (World.answering "bigint" ⟨.ok ["id"], [], none⟩ none)
      (State.initial exampleConfig) ⟨0, "d"⟩ "orders" "id" "7" "bigint" (by decide),
   unsupported_type_behaviour.2.2.2.1 Char.toLower "id" "7" "bigint" (by decide)⟩

/-! ## Errors `BackupDataToFile` does not look at -/

theorem backupRows_all_ok (w : World) (path table : String) (columns : List String)
    (rows : List (List Value)) (n : Nat) (s : State) :
    (backupRows w path table columns (rows.map Except.ok) n s).1 = .ok (n + rows.length) := by
  induction rows generalizing n s with
  | nil => simp [backupRows]
  | cons r rest ih =>
    simp only [List.map_cons, backupRows, List.length_cons]
    rw [ih]
    congr 1
    omega

/-- C4, the behaviour of the code: when the directory and the file can be created and the
query starts, with every row scanned, `BackupDataToFile` returns a path whatever `rows.Err()`
holds after the loop and whatever `file.WriteString` returns; so it does for a stream that
breaks after one row with a file none of whose writes succeeds. -/
theorem BackupDataToFile_unchecked_errors :
    (∀ (w : World) (s : State) (db : DB) (task : CheckTask) (column ty : String),
      (∀ log dir, w.mkdirAll log dir = none) →
      (∀ log path, w.create log path = none) →
      (∀ log db query, ∃ (columns : List String) (rows : List (List Value)) (err : Option GoError),
        w.query log db query = .ok ⟨.ok columns, rows.map Except.ok, err⟩) →
      ∃ path, (BackupDataToFile w s db task column ty).1 = .ok path) ∧
    ((BackupDataToFile
        (World.answering "varchar" ⟨.ok ["name"], [.ok [.str "a"]], some (.driver "invalid connection")⟩
          (some (.driver "no space left on device")))
        (State.initial exampleConfig) ⟨0, "u:p@tcp(h)/shop?parseTime=true"⟩
        ⟨"h", "shop", "orders", "a", 5⟩ "name" "varchar").1 =
        .ok "bk/backup_shop_orders_20240115_090507.sql" ∧
      Event.writeString "bk/backup_shop_orders_20240115_090507.sql"
          "INSERT INTO orders (name) VALUES ('a');\n" (some (.driver "no space left on device")) ∈
        (BackupDataToFile
          (World.answering "varchar"
            ⟨.ok ["name"], [.ok [.str "a"]], some (.driver "invalid connection")⟩
            (some (.driver "no space left on device")))
          (State.initial exampleConfig) ⟨0, "u:p@tcp(h)/shop?parseTime=true"⟩
          ⟨"h", "shop", "orders", "a", 5⟩ "name" "varchar").2.log ∧
      Event.writeString "bk/backup_shop_orders_20240115_090507.sql"
          "\n-- 备份完成，共备份 1 行数据\n" (some (.driver "no space left on device")) ∈
        (BackupDataToFile
          (World.answering "varchar"
            ⟨.ok ["name"], [.ok [.str "a"]], some (.driver "invalid connection")⟩
            (some (.driver "no space left on device")))
          (State.initial exampleConfig) ⟨0, "u:p@tcp(h)/shop?parseTime=true"⟩
          ⟨"h", "shop", "orders", "a", 5⟩ "name" "varchar").2.log) := by
  refine ⟨?_, by decide⟩
  intro w s db task column ty hmk hcr hq
  unfold BackupDataToFile backupBody
  simp only [hmk, hcr]
  generalize hlog : (writeString w _ _ _).log = lg
  obtain ⟨columns, rows, err, hrows⟩ := hq lg db ("SELECT * FROM " ++ task.TableName ++ " " ++
    backupWhereClause w.lower column task.SearchCondition ty)
  simp only [hrows]
  split
  · rename_i heq
    split at heq
    · rename_i heq2
      have := backupRows_all_ok w _ task.TableName columns rows 0 _ ▸ congrArg Prod.fst heq2
      simp at this
    · simp at heq
  · rename_i path s1 heq
    exact ⟨path, rfl⟩

/-- Witness for C4: a world whose stream ends with an error and whose writes all fail. -/
theorem BackupDataToFile_unchecked_errors_witness :
    ∃ path, (BackupDataToFile
        (World.answering "varchar" ⟨.ok ["name"], [[Value.str "a"]].map Except.ok,
          some (.driver "invalid connection")⟩ (some (.driver "no space left on device")))
        (State.initial exampleConfig) ⟨0, "u:p@tcp(h)/shop?parseTime=true"⟩
        ⟨"h", "shop", "orders", "a", 5⟩ "name" "varchar").1 = .ok path :=
  BackupDataToFile_unchecked_errors.1 _ _ _ _ _ _ (fun _ _ => rfl) (fun _ _ => rfl)
    (fun _ _ _ => ⟨["name"], [[.str "a"]], some (.driver "invalid connection"), rfl⟩)

/-! ## The three predicates -/

theorem collapseSpace_nil (b : Bool) : collapseSpace b [] = [] := by
  cases b <;> rfl

theorem collapseSpace_cons (b : Bool) (c : Char) (cs : List Char) :
    collapseSpace b (c :: cs) =
      if isSpace c then (if b then collapseSpace true cs else ' ' :: collapseSpace true cs)
      else c :: collapseSpace false cs := by
  cases b <;> rfl

theorem collapseSpace_append (b : Bool) (xs ys : List Char) :
    collapseSpace b (xs ++ ys) = collapseSpace b xs ++ collapseSpace (spaceAfter b xs) ys := by
  induction xs generalizing b with
  | nil =>
    rw [collapseSpace_nil]
    rfl
  | cons c cs ih =>
    rw [List.cons_append, collapseSpace_cons, collapseSpace_cons]
    have hs : spaceAfter b (c :: cs) = spaceAfter (isSpace c) cs := rfl
    rw [hs]
    by_cases hc : isSpace c = true
    · rw [hc, ih true]
      cases b <;> simp
    · have hc' : isSpace c = false := by simpa using hc
      rw [hc', ih false]
      simp

theorem bindChars_append (xs ys : List Char) (args : List String) (h : '?' ∉ xs) :
    bindChars (xs ++ ys) args = xs ++ bindChars ys args := by
  induction xs with
  | nil => rfl
  | cons c cs ih =>
    have hc : c ≠ '?' := fun e => h (by simp [e])
    have hcs : '?' ∉ cs := fun e => h (List.mem_cons_of_mem _ e)
    simp [bindChars, hc, ih hcs]

theorem flatMap_no_quote (s : List Char) (h : '\'' ∉ s) :
    s.flatMap (fun c => if c = '\'' then ['\'', '\''] else [c]) = s := by
  induction s with
  | nil => rfl
  | cons c cs ih =>
    have hc : c ≠ '\'' := fun e => h (by simp [e])
    have hcs : '\'' ∉ cs := fun e => h (List.mem_cons_of_mem _ e)
    simp [List.flatMap_cons, hc, ih hcs]

theorem renderValue_str_data (s : String) (h : '\'' ∉ s.data) :
    (renderValue (.str s)).data = '\'' :: (s.data ++ ['\'']) := by
  have : renderValue (.str s) = "'" ++ ReplaceAll s "'" "''" ++ "'" := rfl
  rw [this, quoted_data, flatMap_no_quote _ h]

theorem bindChars_placeholder (cs : List Char) (a : String) (rest : List String) :
    bindChars ('?' :: cs) (a :: rest) = (renderValue (.str a)).data ++ bindChars cs rest := by
  simp [bindChars]

theorem backup_eq_bind_string (column condition : String)
    (hq : '?' ∉ column.data) (hc : '\'' ∉ condition.data) :
    "WHERE " ++ column ++ " LIKE '" ++ condition ++ "%'" =
      bindPlaceholders ("WHERE " ++ column ++ " LIKE ?") [condition ++ "%"] := by
  apply String.ext
  have h1 : ("WHERE " ++ column ++ " LIKE ?").data =
      ("WHERE ".data ++ column.data ++ " LIKE ".data) ++ ['?'] := by
    simp [String.data_append]
  have hno : '?' ∉ "WHERE ".data ++ column.data ++ " LIKE ".data := by
    simp only [List.mem_append, not_or]
    exact ⟨⟨by decide, hq⟩, by decide⟩
  have hc' : '\'' ∉ (condition ++ "%").data := by
    simp only [String.data_append, List.mem_append, not_or]
    exact ⟨hc, by decide⟩
  show _ = bindChars ("WHERE " ++ column ++ " LIKE ?").data [condition ++ "%"]
  rw [h1, bindChars_append _ _ _ hno, bindChars_placeholder, renderValue_str_data _ hc']
  simp [String.data_append, bindChars]

theorem backup_eq_bind_date (column condition : String)
    (hq : '?' ∉ column.data) (hc : '\'' ∉ condition.data) :
    "WHERE " ++ column ++ " >= STR_TO_DATE('" ++ condition ++
      "', '%Y%m%d') \n\t\t\t\t\t\t\t\t   AND " ++ column ++ " < STR_TO_DATE('" ++
      condition ++ "', '%Y%m%d') + INTERVAL 1 DAY" =
      bindPlaceholders ("WHERE " ++ column ++
        " >= STR_TO_DATE(?, '%Y%m%d') \n\t\t\t\t\t\t\t\t   AND " ++
        column ++ " < STR_TO_DATE(?, '%Y%m%d') + INTERVAL 1 DAY") [condition, condition] := by
  apply String.ext
  have h1 : ("WHERE " ++ column ++
        " >= STR_TO_DATE(?, '%Y%m%d') \n\t\t\t\t\t\t\t\t   AND " ++
        column ++ " < STR_TO_DATE(?, '%Y%m%d') + INTERVAL 1 DAY").data =
      ("WHERE ".data ++ column.data ++ " >= STR_TO_DATE(".data) ++ ('?' ::
        ((", '%Y%m%d') \n\t\t\t\t\t\t\t\t   AND ".data ++ column.data ++ " < STR_TO_DATE(".data) ++
        ('?' :: ", '%Y%m%d') + INTERVAL 1 DAY".data))) := by
    simp [String.data_append]
  have hno1 : '?' ∉ "WHERE ".data ++ column.data ++ " >= STR_TO_DATE(".data := by
    simp only [List.mem_append, not_or]
    exact ⟨⟨by decide, hq⟩, by decide⟩
  have hno2 : '?' ∉ ", '%Y%m%d') \n\t\t\t\t\t\t\t\t   AND ".data ++ column.data ++
      " < STR_TO_DATE(".data := by
    simp only [List.mem_append, not_or]
    exact ⟨⟨by decide, hq⟩, by decide⟩
  show _ = bindChars _ [condition, condition]
  rw [h1, bindChars_append _ _ _ hno1, bindChars_placeholder, renderValue_str_data _ hc,
    bindChars_append _ _ _ hno2, bindChars_placeholder, renderValue_str_data _ hc]
  have h3 : bindChars ", '%Y%m%d') + INTERVAL 1 DAY".data [] =
      ", '%Y%m%d') + INTERVAL 1 DAY".data := by
    decide
  rw [h3]
  simp [String.data_append]

theorem collapseSpace_gap (b : Bool) (P W W' Q : List Char)
    (h : ∀ e, collapseSpace e W = collapseSpace e W' ∧ spaceAfter e W = spaceAfter e W') :
    collapseSpace b (P ++ (W ++ Q)) = collapseSpace b (P ++ (W' ++ Q)) := by
  rw [collapseSpace_append, collapseSpace_append, collapseSpace_append b P,
    collapseSpace_append _ W', (h _).1, (h _).2]

theorem count_delete_same_clause (column : String) :
    normalizeSpace ("WHERE " ++ column ++ " >= STR_TO_DATE(?, '%Y%m%d') \n\t\t\t\t\t\t\t AND " ++
        column ++ " < STR_TO_DATE(?, '%Y%m%d') + INTERVAL 1 DAY") =
      normalizeSpace ("WHERE " ++ column ++
        " >= STR_TO_DATE(?, '%Y%m%d') \n\t\t\t\t\t\t\t\t   AND " ++
        column ++ " < STR_TO_DATE(?, '%Y%m%d') + INTERVAL 1 DAY") := by
  apply String.ext
  show collapseSpace false _ = collapseSpace false _
  have h1 : ("WHERE " ++ column ++ " >= STR_TO_DATE(?, '%Y%m%d') \n\t\t\t\t\t\t\t AND " ++
        column ++ " < STR_TO_DATE(?, '%Y%m%d') + INTERVAL 1 DAY").data =
      ("WHERE ".data ++ column.data ++ " >= STR_TO_DATE(?, '%Y%m%d')".data) ++
        (" \n\t\t\t\t\t\t\t ".data ++
          ("AND ".data ++ column.data ++ " < STR_TO_DATE(?, '%Y%m%d') + INTERVAL 1 DAY".data)) := by
    simp [String.data_append]
  have h2 : ("WHERE " ++ column ++
        " >= STR_TO_DATE(?, '%Y%m%d') \n\t\t\t\t\t\t\t\t   AND " ++
        column ++ " < STR_TO_DATE(?, '%Y%m%d') + INTERVAL 1 DAY").data =
      ("WHERE ".data ++ column.data ++ " >= STR_TO_DATE(?, '%Y%m%d')".data) ++
        (" \n\t\t\t\t\t\t\t\t   ".data ++
          ("AND ".data ++ column.data ++ " < STR_TO_DATE(?, '%Y%m%d') + INTERVAL 1 DAY".data)) := by
    simp [String.data_append]
  rw [h1, h2]
  apply collapseSpace_gap
  intro e
  cases e <;> decide

theorem date_clause_canonical (column : String) :
    normalizeSpace ("WHERE " ++ column ++
        " >= STR_TO_DATE(?, '%Y%m%d') \n\t\t\t\t\t\t\t\t   AND " ++
        column ++ " < STR_TO_DATE(?, '%Y%m%d') + INTERVAL 1 DAY") =
      normalizeSpace ("WHERE " ++ column ++ " >= STR_TO_DATE(?, '%Y%m%d') AND " ++
        column ++ " < STR_TO_DATE(?, '%Y%m%d') + INTERVAL 1 DAY") := by
  apply String.ext
  show collapseSpace false _ = collapseSpace false _
  have h1 : ("WHERE " ++ column ++ " >= STR_TO_DATE(?, '%Y%m%d') AND " ++
        column ++ " < STR_TO_DATE(?, '%Y%m%d') + INTERVAL 1 DAY").data =
      ("WHERE ".data ++ column.data ++ " >= STR_TO_DATE(?, '%Y%m%d')".data) ++
        (" ".data ++
          ("AND ".data ++ column.data ++ " < STR_TO_DATE(?, '%Y%m%d') + INTERVAL 1 DAY".data)) := by
    simp [String.data_append]
  have h2 : ("WHERE " ++ column ++
        " >= STR_TO_DATE(?, '%Y%m%d') \n\t\t\t\t\t\t\t\t   AND " ++
        column ++ " < STR_TO_DATE(?, '%Y%m%d') + INTERVAL 1 DAY").data =
      ("WHERE ".data ++ column.data ++ " >= STR_TO_DATE(?, '%Y%m%d')".data) ++
        (" \n\t\t\t\t\t\t\t\t   ".data ++
          ("AND ".data ++ column.data ++ " < STR_TO_DATE(?, '%Y%m%d') + INTERVAL 1 DAY".data)) := by
    simp [String.data_append]
  rw [h1, h2]
  apply collapseSpace_gap
  intro e
  cases e <;> decide

/-- C2, the behaviour of the code: `CountRowsByCondition` and `DeleteDataByCondition` bind
the same arguments to the same clause up to white space; the clause `BackupDataToFile` builds
is that clause with the arguments written in as literals when the condition holds no single
quote (and the column no `?`); for the condition `O'Brien` it is
`WHERE name LIKE 'O'Brien%'`, which is not the bound clause `WHERE name LIKE 'O''Brien%'`. -/
theorem predicate_construction :
    (∀ (lower : Char → Char) (table column condition ty clause : String) (args : List String),
      deleteWhereClause lower column condition ty = .ok (clause, args) →
      ∃ countClause,
        countQuery lower table column condition ty =
          .ok ("SELECT COUNT(*) FROM " ++ table ++ " " ++ countClause, args) ∧
        normalizeSpace countClause = normalizeSpace clause) ∧
    (∀ (lower : Char → Char) (column condition ty : String), isStringType lower ty = true →
      deleteWhereClause lower column condition ty =
        .ok ("WHERE " ++ column ++ " LIKE ?", [condition ++ "%"])) ∧
    (∀ (lower : Char → Char) (column condition ty : String), isStringType lower ty = false →
      isDateTimeType lower ty = true →
      ∃ clause, deleteWhereClause lower column condition ty = .ok (clause, [condition, condition]) ∧
        normalizeSpace clause =
          normalizeSpace ("WHERE " ++ column ++ " >= STR_TO_DATE(?, '%Y%m%d') AND " ++
            column ++ " < STR_TO_DATE(?, '%Y%m%d') + INTERVAL 1 DAY")) ∧
    (∀ (lower : Char → Char) (column condition ty clause : String) (args : List String),
      deleteWhereClause lower column condition ty = .ok (clause, args) →
      '?' ∉ column.data → '\'' ∉ condition.data →
      backupWhereClause lower column condition ty = bindPlaceholders clause args) ∧
    (backupWhereClause Char.toLower "name" "O'Brien" "varchar" = "WHERE name LIKE 'O'Brien%'" ∧
      deleteWhereClause Char.toLower "name" "O'Brien" "varchar" =
        .ok ("WHERE name LIKE ?", ["O'Brien%"]) ∧
      countQuery Char.toLower "people" "name" "O'Brien" "varchar" =
        .ok ("SELECT COUNT(*) FROM people WHERE name LIKE ?", ["O'Brien%"]) ∧
      bindPlaceholders "WHERE name LIKE ?" ["O'Brien%"] = "WHERE name LIKE 'O''Brien%'" ∧
      backupWhereClause Char.toLower "name" "O'Brien" "varchar" ≠
        bindPlaceholders "WHERE name LIKE ?" ["O'Brien%"]) := by
  refine ⟨?_, ?_, ?_, ?_, by decide⟩
  · intro lower table column condition ty clause args h
    unfold deleteWhereClause at h
    unfold countQuery
    by_cases hs : isStringType lower ty = true
    · simp only [hs, if_true, Except.ok.injEq, Prod.mk.injEq] at h ⊢
      refine ⟨"WHERE " ++ column ++ " LIKE ?", ⟨?_, h.2⟩, by rw [h.1]⟩
      apply String.ext
      simp [String.data_append]
    · by_cases hd : isDateTimeType lower ty = true
      · simp only [hs, hd, if_true, Bool.false_eq_true, if_false, Except.ok.injEq,
          Prod.mk.injEq] at h ⊢
        refine ⟨"WHERE " ++ column ++ " >= STR_TO_DATE(?, '%Y%m%d') \n\t\t\t\t\t\t\t AND " ++
          column ++ " < STR_TO_DATE(?, '%Y%m%d') + INTERVAL 1 DAY", ⟨?_, h.2⟩, ?_⟩
        · apply String.ext
          simp [String.data_append]
        · rw [← h.1]
          exact count_delete_same_clause column
      · simp [hs, hd] at h
  · intro lower column condition ty hs
    simp [deleteWhereClause, hs]
  · intro lower column condition ty hs hd
    refine ⟨_, by simp [deleteWhereClause, hs, hd], date_clause_canonical column⟩
  · intro lower column condition ty clause args h hq hc
    unfold deleteWhereClause at h
    unfold backupWhereClause
    by_cases hs : isStringType lower ty = true
    · simp only [hs, if_true, Except.ok.injEq, Prod.mk.injEq] at h ⊢
      rw [← h.1, ← h.2]
      exact backup_eq_bind_string column condition hq hc
    · by_cases hd : isDateTimeType lower ty = true
      · simp only [hs, hd, if_true, Bool.false_eq_true, if_false, Except.ok.injEq,
          Prod.mk.injEq] at h ⊢
        rw [← h.1, ← h.2]
        exact backup_eq_bind_date column condition hq hc
      · simp [hs, hd] at h

/-- Witness for C2 at a date-like column and the condition `20240115`. -/
theorem predicate_construction_witness :
    backupWhereClause Char.toLower "created_at" "20240115" "datetime" =
      bindPlaceholders
        ("WHERE " ++ "created_at" ++ " >= STR_TO_DATE(?, '%Y%m%d') \n\t\t\t\t\t\t\t\t   AND " ++
          "created_at" ++ " < STR_TO_DATE(?, '%Y%m%d') + INTERVAL 1 DAY")
        ["20240115", "20240115"] :=
  predicate_construction.2.2.2.1 Char.toLower "created_at" "20240115" "datetime" _ _
    (by decide) (by decide) (by decide)

/-! ## Sequences of connection calls -/

theorem lookup_filter_ne (m : List (String × DB)) (key k : String) (h : k ≠ key) :
    (m.filter (fun p => p.1 ≠ key)).lookup k = m.lookup k := by
  induction m with
  | nil => rfl
  | cons p ps ih =>
    obtain ⟨a, b⟩ := p
    by_cases ha : a = key
    · subst ha
      have hka : (k == a) = false := by simpa using h
      rw [List.lookup_cons, hka]
      simpa [List.filter_cons] using ih
    · rw [List.filter_cons]
      simp only [ne_eq, ha, not_false_eq_true, decide_True, if_true]
      rw [List.lookup_cons, List.lookup_cons, ih]

theorem lookup_mapInsert_ne (m : List (String × DB)) (key k : String) (db : DB) (h : k ≠ key) :
    (mapInsert m key db).lookup k = m.lookup k := by
  unfold mapInsert
  have hk : (k == key) = false := by simpa using h
  rw [List.lookup_cons, hk]
  exact lookup_filter_ne m key k h

/-- What one call does to the cache: a hit changes nothing; a miss that fails changes
nothing in the cache and logs an event; a miss that succeeds stores the new connection
under the key and logs events. -/
theorem ConnectTargetDB_cases (w : World) (s : State) (host database username password : String) :
    (∃ db, s.dm.targetDBs.lookup (host ++ "-" ++ database) = some db ∧
      ConnectTargetDB w s host database username password = (.ok db, s)) ∨
    (s.dm.targetDBs.lookup (host ++ "-" ++ database) = none ∧
      (ConnectTargetDB w s host database username password).2.log ≠ s.log ∧
      ((∃ err, (ConnectTargetDB w s host database username password).1 = .error err ∧
          (ConnectTargetDB w s host database username password).2.dm.targetDBs =
            s.dm.targetDBs) ∨
       (∃ db, (ConnectTargetDB w s host database username password).1 = .ok db ∧
          (ConnectTargetDB w s host database username password).2.dm.targetDBs =
            mapInsert s.dm.targetDBs (host ++ "-" ++ database) db))) := by
  unfold ConnectTargetDB
  cases hl : s.dm.targetDBs.lookup (host ++ "-" ++ database) with
  | some db => exact Or.inl ⟨db, rfl, by simp [hl]⟩
  | none =>
    right
    simp only [hl]
    refine ⟨trivial, ?_⟩
    split
    · exact ⟨by simp [emit_log], Or.inl ⟨_, rfl, rfl⟩⟩
    · split
      · exact ⟨by simp [emit_log], Or.inl ⟨_, rfl, rfl⟩⟩
      · exact ⟨by simp [emit_log], Or.inr ⟨_, rfl, rfl⟩⟩

theorem connectAll_snoc (w : World) (s : State) (calls : List ConnectArgs) (c : ConnectArgs) :
    connectAll w s (calls ++ [c]) =
      ((connectAll w s calls).1 ++
          [(c, (ConnectTargetDB w (connectAll w s calls).2 c.host c.database c.username
            c.password).1)],
        (ConnectTargetDB w (connectAll w s calls).2 c.host c.database c.username
          c.password).2) := by
  unfold connectAll
  rw [List.foldl_append]
  rfl

/-- The cache after a sequence of calls that started with an empty cache: a key holds a
connection exactly when some call of the sequence with that key returned it. -/
theorem connectAll_cache (w : World) (s : State) (calls : List ConnectArgs)
    (h0 : s.dm.targetDBs = []) (k : String) (db : DB) :
    (connectAll w s calls).2.dm.targetDBs.lookup k = some db ↔
      ∃ e ∈ (connectAll w s calls).1, e.1.host ++ "-" ++ e.1.database = k ∧ e.2 = .ok db := by
  induction calls using List.reverseRecOn generalizing k db with
  | nil => simp [connectAll, h0]
  | append_singleton calls c ih =>
    rw [connectAll_snoc]
    simp only [List.mem_append, List.mem_singleton]
    rcases ConnectTargetDB_cases w (connectAll w s calls).2 c.host c.database c.username
      c.password with ⟨db0, hl, hhit⟩ | ⟨hl, -, ⟨err, herr, hm⟩ | ⟨dbn, hok, hm⟩⟩
    · rw [hhit]
      simp only
      constructor
      · intro h
        obtain ⟨e, he, hk, hr⟩ := (ih k db).1 h
        exact ⟨e, Or.inl he, hk, hr⟩
      · rintro ⟨e, he | he, hk, hr⟩
        · exact (ih k db).2 ⟨e, he, hk, hr⟩
        · subst he
          simp only at hk hr
          rw [← hk, hl]
          exact congrArg some (Except.ok.inj hr)
    · rw [hm, herr]
      constructor
      · intro h
        obtain ⟨e, he, hk, hr⟩ := (ih k db).1 h
        exact ⟨e, Or.inl he, hk, hr⟩
      · rintro ⟨e, he | he, hk, hr⟩
        · exact (ih k db).2 ⟨e, he, hk, hr⟩
        · subst he
          simp at hr
    · rw [hm, hok]
      by_cases hk : k = c.host ++ "-" ++ c.database
      · subst hk
        rw [lookup_mapInsert_self]
        constructor
        · intro h
          exact ⟨(c, .ok dbn), Or.inr rfl, rfl, by rw [Option.some.inj h]⟩
        · rintro ⟨e, he | he, hk, hr⟩
          · have := (ih _ db).2 ⟨e, he, hk, hr⟩
            rw [hl] at this
            simp at this
          · subst he
            simp only at hr
            exact congrArg some (Except.ok.inj hr)
      · rw [lookup_mapInsert_ne _ _ _ _ hk]
        constructor
        · intro h
          obtain ⟨e, he, hk', hr⟩ := (ih k db).1 h
          exact ⟨e, Or.inl he, hk', hr⟩
        · rintro ⟨e, he | he, hk', hr⟩
          · exact (ih k db).2 ⟨e, he, hk', hr⟩
          · subst he
            exact absurd hk'.symm hk

/-- C8, the behaviour of the code: after any sequence of `ConnectTargetDB` calls on a fresh
manager, a further call opens nothing exactly when an earlier call with the same text
`host-database` succeeded, and it then returns that call's connection; so a call for the
host and database of an earlier successful call is served from the cache, and so is a call
for host `db`, database `1-shop` after one for host `db-1`, database `shop`, because both
pairs give the key `db-1-shop`. -/
theorem ConnectTargetDB_cache_key :
    (∀ (w : World) (s : State) (calls : List ConnectArgs) (host database u p : String),
      s.dm.targetDBs = [] →
      ((ConnectTargetDB w (connectAll w s calls).2 host database u p).2.log =
          (connectAll w s calls).2.log ↔
        ∃ e ∈ (connectAll w s calls).1,
          e.1.host ++ "-" ++ e.1.database = host ++ "-" ++ database ∧ ∃ db, e.2 = .ok db) ∧
      (∀ e ∈ (connectAll w s calls).1, ∀ db,
        e.1.host ++ "-" ++ e.1.database = host ++ "-" ++ database → e.2 = .ok db →
        ConnectTargetDB w (connectAll w s calls).2 host database u p =
          (.ok db, (connectAll w s calls).2))) ∧
    (∀ (w : World) (s s1 : State) (host database u p u' p' : String) (db : DB),
      ConnectTargetDB w s host database u p = (.ok db, s1) →
      ConnectTargetDB w s1 host database u' p' = (.ok db, s1)) ∧
    (let w := World.answering "varchar" ⟨.ok [], [], none⟩ none
     let first := ConnectTargetDB w (State.initial exampleConfig) "db-1" "shop" "u" "p"
     let second := ConnectTargetDB w first.2 "db" "1-shop" "u" "p"
     first.1 = .ok ⟨0, "u:p@tcp(db-1)/shop?parseTime=true"⟩ ∧
     first.2.log = [.sqlOpen "u:p@tcp(db-1)/shop?parseTime=true",
       .ping ⟨0, "u:p@tcp(db-1)/shop?parseTime=true"⟩] ∧
     second.1 = .ok ⟨0, "u:p@tcp(db-1)/shop?parseTime=true"⟩ ∧
     second.2.log = first.2.log ∧
     (("db-1" : String), ("shop" : String)) ≠ ("db", "1-shop")) := by
  refine ⟨?_, ?_, by decide⟩
  · intro w s calls host database u p h0
    refine ⟨?_, ?_⟩
    · rcases ConnectTargetDB_cases w (connectAll w s calls).2 host database u p with
        ⟨db0, hl, hhit⟩ | ⟨hl, hlog, -⟩
      · rw [hhit]
        simp only [true_iff]
        obtain ⟨e, he, hk, hr⟩ := (connectAll_cache w s calls h0 _ db0).1 hl
        exact ⟨e, he, hk, db0, hr⟩
      · constructor
        · intro h
          exact absurd h hlog
        · rintro ⟨e, he, hk, db, hr⟩
          have := (connectAll_cache w s calls h0 _ db).2 ⟨e, he, hk, hr⟩
          rw [hl] at this
          simp at this
    · intro e he db hk hr
      exact ConnectTargetDB_hit w _ host database u p db
        ((connectAll_cache w s calls h0 _ db).2 ⟨e, he, hk, hr⟩)
  · intro w s s1 host database u p u' p' db h
    exact ConnectTargetDB_hit w s1 host database u' p' db
      (ConnectTargetDB_ok_cached w s s1 host database u p db h)

/-- Witness for C8: two calls for host `db-1`, database `shop`. -/
theorem ConnectTargetDB_cache_key_witness :
    ConnectTargetDB (World.answering "varchar" ⟨.ok [], [], none⟩ none)
      (ConnectTargetDB (World.answering "varchar" ⟨.ok [], [], none⟩ none)
        (State.initial exampleConfig) "db-1" "shop" "u" "p").2 "db-1" "shop" "u" "p" =
    (.ok ⟨0, "u:p@tcp(db-1)/shop?parseTime=true"⟩,
      (ConnectTargetDB (World.answering "varchar" ⟨.ok [], [], none⟩ none)
        (State.initial exampleConfig) "db-1" "shop" "u" "p").2) :=
  ConnectTargetDB_cache_key.2.1 (World.answering "varchar" ⟨.ok [], [], none⟩ none)
    (State.initial exampleConfig)
    (ConnectTargetDB (World.answering "varchar" ⟨.ok [], [], none⟩ none)
        (State.initial exampleConfig) "db-1" "shop" "u" "p").2
    "db-1" "shop" "u" "p" "u" "p" ⟨0, "u:p@tcp(db-1)/shop?parseTime=true"⟩ (by decide)

end FixData
